import Mathlib

/-!
# SubImageFile: subtitle timeline and frame rendering

A shallow embedding of `src/SubImageFile.cpp` (AviSynth+ plugin rendering
VobSub / PGS bitmap subtitles) and theorems about it.

Conventions of the embedding:

* C++ `int` / `int64_t` values are Lean `Int`s and arithmetic on them is exact;
  `uint8_t` / `uint32_t` values are `Nat`s, reduced `% 2 ^ w` where the source
  converts into the narrower type; the elements of the override table, a
  `std::vector<int>`, are reduced to 32 bits (`toInt32`) when stored and read.
* `std::vector<T>` is `List T`; a loop `for (i = 0; i < n; ++i)` over a mutable
  vector is a left fold over `List.range n` of the loop body, which receives
  and returns the vector.
* A source execution with no defined result (division by zero, a failed
  `assert`, `front()` or `back()` of an empty vector, an access outside a vector
  or outside a buffer the decoder describes) is `none`; `env->ThrowError` is
  `Except.error`.
* The decoder and the host (`IScriptEnvironment`) are outside the source: the
  decoder is an arbitrary transition function, the host's frames are byte lists
  with a pitch.
-/

set_option maxRecDepth 100000

namespace SubImageFile

/-! ## Data model -/

/-- An `AVPacket`, reduced to the fields the filter reads (`pts`,
`stream_index`) and an identifier for its payload bytes. -/
structure AVPacket where
  pts : Int
  stream_index : Int
  data : Nat
deriving DecidableEq, Repr

/-- The source's `struct Subtitle` (lines 15-20). `end_frame` is the first frame
on which the subtitle is not displayed. -/
structure Subtitle where
  packets : List AVPacket
  start_frame : Int
  end_frame : Int
deriving DecidableEq, Repr

/-- The test of line 25: `start_frame <= frame && frame < end_frame`. -/
def Subtitle.covers (s : Subtitle) (frame : Int) : Prop :=
  s.start_frame ≤ frame ∧ frame < s.end_frame

instance (s : Subtitle) (frame : Int) : Decidable (s.covers frame) := by
  unfold Subtitle.covers; infer_instance

/-! ## `findSubtitleIndex` (lines 22-29) -/

/-- The loop of `findSubtitleIndex`, from loop counter `i` on, over the
elements not yet visited: the first element whose interval covers `frame`
returns its index, falling off the end returns `-1`. -/
def findSubtitleIndexFrom (frame : Int) : List Subtitle → Nat → Int
  | [], _ => -1
  | s :: rest, i =>
    if s.start_frame ≤ frame ∧ frame < s.end_frame then (i : Int)
    else findSubtitleIndexFrom frame rest (i + 1)

/-- The function `findSubtitleIndex(frame, subtitles)`. -/
def findSubtitleIndex (frame : Int) (subtitles : List Subtitle) : Int :=
  findSubtitleIndexFrom frame subtitles 0

/-! ## End-time correction (constructor, lines 300-312) -/

/-- Body of the correction loop at index `i`, on the vector as it stands:
an `end_frame` of `0` becomes the next element's `start_frame` when
`i < size - 1`, and `num_frames` otherwise. -/
def correctEndFrameAt (num_frames : Int) (subtitles : List Subtitle) (i : Nat) :
    List Subtitle :=
  match subtitles[i]? with
  | none => subtitles
  | some s =>
    if s.end_frame = 0 then
      if i + 1 < subtitles.length then
        match subtitles[i + 1]? with
        | some next => subtitles.set i { s with end_frame := next.start_frame }
        | none => subtitles
      else subtitles.set i { s with end_frame := num_frames }
    else subtitles

/-- The correction loop `for (i = 0; i < subtitles.size(); ++i)`. -/
def correctEndFrames (num_frames : Int) (subtitles : List Subtitle) : List Subtitle :=
  (List.range subtitles.length).foldl (correctEndFrameAt num_frames) subtitles

/-- The element the correction loop is to leave at index `i`, in terms of the
vector `subs` before the loop and its element `s` at `i` (used to state the
loop invariant). -/
def correctedAt (T : Int) (subs : List Subtitle) (i : Nat) (s : Subtitle) : Subtitle :=
  if s.end_frame = 0 then
    match subs[i + 1]? with
    | some next => { s with end_frame := next.start_frame }
    | none => { s with end_frame := T }
  else s

/-! ## Rational arithmetic and timestamps (lines 45-81) -/

/-- FFmpeg's `AVRational`. -/
structure AVRational where
  num : Int
  den : Int
deriving DecidableEq, Repr

/-- The loop `while (b != 0) { t = a; a = b; b = t % b; }` of `muldivRational`
(lines 59-64); C++ `%` truncates toward zero (`Int.tmod`). `fuel` bounds the
number of loop tests; `none` means the bound was hit before `b` reached `0`
(`gcdLoop_spec`: it is not, from `|b| + 1` on). -/
def gcdLoop : Nat → Int → Int → Option Int
  | 0, _, _ => none
  | fuel + 1, a, b => if b = 0 then some a else gcdLoop fuel b (Int.tmod a b)

/-- The function `muldivRational(&num, &den, mul, div)`, returning the new
`(num, den)`. An invalid rational (`den == 0`) is returned as it is; a zero
`div` fails `assert(div)`; C++ `/` truncates toward zero (`Int.tdiv`) and is
undefined for a zero divisor. -/
def muldivRational (num den mul div : Int) : Option (Int × Int) :=
  if den = 0 then some (num, den)
  else if div = 0 then none
  else
    let num := num * mul
    let den := den * div
    match gcdLoop (den.natAbs + 1) num den with
    | none => none
    | some a =>
      let a := if a < 0 then -a else a
      if a = 0 then none else some (Int.tdiv num a, Int.tdiv den a)

/-- The function `timestampToFrameNumber(pts, time_base, fpsnum, fpsden)`;
the final `num / den` is undefined for `den == 0`. The `int64_t` products are
exact and the quotient is taken to fit the `int` it is converted to. -/
def timestampToFrameNumber (pts : Int) (time_base : AVRational) (fpsnum fpsden : Int) :
    Option Int :=
  match muldivRational time_base.num time_base.den fpsnum fpsden with
  | none => none
  | some (num, den) =>
    match muldivRational num den pts 1 with
    | none => none
    | some (num, den) => if den = 0 then none else some (Int.tdiv num den)

/-! ## The decoder, as the filter sees it -/

/-- The two codecs `isSupportedCodecID` accepts (line 42). -/
inductive AVCodecID where
  | AV_CODEC_ID_DVD_SUBTITLE
  | AV_CODEC_ID_HDMV_PGS_SUBTITLE
deriving DecidableEq, Repr

/-- FFmpeg's `enum AVSubtitleType`. -/
inductive AVSubtitleType where
  | SUBTITLE_NONE
  | SUBTITLE_BITMAP
  | SUBTITLE_TEXT
  | SUBTITLE_ASS
deriving DecidableEq, Repr

/-- FFmpeg's `AVSubtitleRect`, reduced to what `GetFrame` reads: `data0` is the
index buffer `data[0]` (one byte per pixel, rows `linesize0` apart), `data1`
the palette `data[1]` as 32-bit entries. -/
structure AVSubtitleRect where
  x : Int
  y : Int
  w : Int
  h : Int
  type : AVSubtitleType
  data0 : List Nat
  linesize0 : Int
  data1 : List Nat
deriving DecidableEq, Repr

/-- FFmpeg's `AVSubtitle`; `num_rects` is the length of `rects`. -/
structure AVSubtitle where
  start_display_time : Nat
  end_display_time : Nat
  rects : List AVSubtitleRect
deriving DecidableEq, Repr

/-- The field `num_rects` of an `AVSubtitle`. -/
def AVSubtitle.num_rects (avsub : AVSubtitle) : Nat := avsub.rects.length

/-- What one call `avcodec_decode_subtitle2(avctx, &avsub, &got, &packet)` leaves
behind: the decoder context, the return value, whether `got` is non-zero, and
`avsub`. -/
structure DecodeOutput (σ : Type) where
  avctx : σ
  ret : Int
  got_sub : Bool
  avsub : AVSubtitle

/-- The external decoder: an arbitrary transition function on decoder contexts
of type `σ`. -/
structure Decoder (σ : Type) where
  avcodec_decode_subtitle2 : σ → AVPacket → DecodeOutput σ

/-! ## Timeline construction (constructor, lines 220-312) -/

/-- What the constructor reads from the opened stream and from the host clip's
`VideoInfo`. -/
structure StreamConfig where
  stream_index : Int
  codec_id : AVCodecID
  time_base : AVRational
  fps_numerator : Nat
  fps_denominator : Nat
  num_frames : Int
deriving DecidableEq, Repr

/-- The variables the read loop of lines 227-288 updates: the decoder context,
`current_subtitle` (whose `packets` is the accumulator) and `subtitles`. -/
structure BuildState (σ : Type) where
  avctx : σ
  current_subtitle : Subtitle
  subtitles : List Subtitle

/-- The state before the read loop: `current_subtitle = { }`, no subtitles. -/
def BuildState.start {σ : Type} (avctx : σ) : BuildState σ :=
  { avctx := avctx, current_subtitle := { packets := [], start_frame := 0, end_frame := 0 },
    subtitles := [] }

/-- Assignment `subtitles.back().end_frame = f` on a non-empty vector. -/
def setBackEndFrame (subtitles : List Subtitle) (f : Int) : List Subtitle :=
  match subtitles.getLast? with
  | none => subtitles
  | some back => subtitles.dropLast ++ [{ back with end_frame := f }]

/-- Lines 250-269: the decoder produced an `AVSubtitle` with `num_rects != 0`
from `packet`. -/
def onSubtitleWithRects {σ : Type} (cfg : StreamConfig) (st : BuildState σ)
    (packet : AVPacket) (avsub : AVSubtitle) : Option (BuildState σ) :=
  let packets := st.current_subtitle.packets ++ [packet]
  match packets.head? with
  | none => none
  | some front =>
    let start_time := front.pts
    match cfg.codec_id with
    | AVCodecID.AV_CODEC_ID_DVD_SUBTITLE =>
      let start_time := start_time + (avsub.start_display_time : Int)
      match timestampToFrameNumber (packet.pts + (avsub.end_display_time : Int))
          cfg.time_base cfg.fps_numerator cfg.fps_denominator with
      | none => none
      | some e =>
        let end_frame := if avsub.end_display_time = 0 then 0 else e
        match timestampToFrameNumber start_time cfg.time_base
            cfg.fps_numerator cfg.fps_denominator with
        | none => none
        | some f =>
          let cur : Subtitle := { packets := packets, start_frame := f, end_frame := end_frame }
          some { st with subtitles := st.subtitles ++ [cur],
                         current_subtitle := { cur with packets := [] } }
    | AVCodecID.AV_CODEC_ID_HDMV_PGS_SUBTITLE =>
      match timestampToFrameNumber start_time cfg.time_base
          cfg.fps_numerator cfg.fps_denominator with
      | none => none
      | some f =>
        let cur : Subtitle :=
          { packets := packets, start_frame := f, end_frame := st.current_subtitle.end_frame }
        some { st with subtitles := st.subtitles ++ [cur],
                       current_subtitle := { cur with packets := [] } }

/-- Lines 270-282: the decoder produced an `AVSubtitle` with `num_rects == 0`.
The packet it was produced from is not appended to the accumulator. Line 272
calls `subtitles.back()` before the `size()` test of line 273, and `back()` of
an empty vector has no defined value; `current_subtitle.packets.front()` is
read under the test, and has no defined value on an empty accumulator. -/
def onSubtitleWithoutRects {σ : Type} (cfg : StreamConfig) (st : BuildState σ) :
    Option (BuildState σ) :=
  match st.subtitles.getLast? with
  | none => none
  | some _ =>
    if st.subtitles.length ≠ 0 then
      match st.current_subtitle.packets.head? with
      | none => none
      | some front =>
        match timestampToFrameNumber front.pts cfg.time_base
            cfg.fps_numerator cfg.fps_denominator with
        | none => none
        | some f =>
          some { st with subtitles := setBackEndFrame st.subtitles f,
                         current_subtitle := { st.current_subtitle with packets := [] } }
    else
      some { st with current_subtitle := { st.current_subtitle with packets := [] } }

/-- One iteration of the read loop (lines 229-287) on the packet returned by
`av_read_frame`. -/
def readPacket {σ : Type} (cfg : StreamConfig) (dec : Decoder σ) (st : BuildState σ)
    (packet : AVPacket) : Option (BuildState σ) :=
  if packet.stream_index ≠ cfg.stream_index then some st
  else
    let out := dec.avcodec_decode_subtitle2 st.avctx packet
    let st := { st with avctx := out.avctx }
    if out.ret < 0 then some st
    else if out.got_sub then
      if out.avsub.num_rects ≠ 0 then onSubtitleWithRects cfg st packet out.avsub
      else onSubtitleWithoutRects cfg st
    else
      some { st with current_subtitle :=
        { st.current_subtitle with packets := st.current_subtitle.packets ++ [packet] } }

/-- The read loop `while (av_read_frame(fctx, &packet) == 0)` over the packets
of the file, in order. -/
def readPackets {σ : Type} (cfg : StreamConfig) (dec : Decoder σ) :
    BuildState σ → List AVPacket → Option (BuildState σ)
  | st, [] => some st
  | st, packet :: rest =>
    match readPacket cfg dec st packet with
    | none => none
    | some st1 => readPackets cfg dec st1 rest

/-- The message of the `ThrowError` of line 297. -/
def noUsableSubtitles : String := "SubImageFile: no usable subtitle pictures found."

/-- Lines 220-312 of the constructor: the read loop from the initial state, the
test for an empty timeline and the end-time correction. The result is the
timeline `subtitles` of the filter and the decoder context. -/
def buildTimeline {σ : Type} (cfg : StreamConfig) (dec : Decoder σ) (avctx : σ)
    (packets : List AVPacket) : Option (Except String (List Subtitle × σ)) :=
  match readPackets cfg dec (BuildState.start avctx) packets with
  | none => none
  | some st =>
    if st.subtitles.length = 0 then some (Except.error noUsableSubtitles)
    else some (Except.ok (correctEndFrames cfg.num_frames st.subtitles, st.avctx))

/-- A decoder for worked examples, whose answer is read off the packet's
`data`: `0` is a packet that completes no subtitle, `1` completes a subtitle
with no rect, and `n + 2` completes a subtitle with one 1x1 bitmap rect and
`end_display_time = n`. -/
def scriptedDecoder : Decoder Unit where
  avcodec_decode_subtitle2 := fun _ packet =>
    match packet.data with
    | 0 => { avctx := (), ret := 0, got_sub := false,
             avsub := { start_display_time := 0, end_display_time := 0, rects := [] } }
    | 1 => { avctx := (), ret := 0, got_sub := true,
             avsub := { start_display_time := 0, end_display_time := 0, rects := [] } }
    | n + 2 => { avctx := (), ret := 0, got_sub := true,
                 avsub := { start_display_time := 0, end_display_time := n,
                            rects := [{ x := 0, y := 0, w := 1, h := 1,
                                        type := AVSubtitleType.SUBTITLE_BITMAP,
                                        data0 := [0], linesize0 := 1,
                                        data1 := List.replicate 256 0 }] } }

/-- The stream settings of the worked examples: millisecond time base, 30 fps. -/
def exampleConfig (codec_id : AVCodecID) (num_frames : Int) : StreamConfig :=
  { stream_index := 0, codec_id := codec_id, time_base := { num := 1, den := 1000 },
    fps_numerator := 30, fps_denominator := 1, num_frames := num_frames }

/-- The invariant of a corrected timeline with total frame count `T`: every
interval is non-empty, and the last one ends by `T`. -/
def TimelineInvariant (T : Int) (subs : List Subtitle) : Prop :=
  (∀ s ∈ subs, s.start_frame < s.end_frame) ∧
  (∀ l, subs.getLast? = some l → l.end_frame ≤ T)

/-- The condition on a timeline as the read loop leaves it under which the
correction loop establishes `TimelineInvariant`: an interval with a known
(non-zero) end is non-empty, an interval with end `0` starts before its
successor, and the last interval starts before `T` when its end is `0` and
ends by `T` otherwise. -/
def Correctable (T : Int) (subs : List Subtitle) : Prop :=
  (∀ (i : Nat) (s : Subtitle), subs[i]? = some s → s.end_frame ≠ 0 →
    s.start_frame < s.end_frame) ∧
  (∀ (i : Nat) (s n : Subtitle), subs[i]? = some s → subs[i + 1]? = some n →
    s.end_frame = 0 → s.start_frame < n.start_frame) ∧
  (∀ l, subs.getLast? = some l →
    (l.end_frame = 0 → l.start_frame < T) ∧ (l.end_frame ≠ 0 → l.end_frame ≤ T))

/-! ## Palette preparation (lines 13, 31-38, 462-469) -/

/-- The constant `AVPALETTE_COUNT` of FFmpeg. -/
def AVPALETTE_COUNT : Nat := 256

/-- The constant `unused_colour = static_cast<int64_t>(1) << 42` (line 13). -/
def unused_colour : Int := 2 ^ 42

/-- Lines 35-36, the body of the loop of `makePaletteGray` on the entry `p`, in
`uint32_t` arithmetic. -/
def grayEntry (p : Nat) : Nat :=
  let g := (((p >>> 16) &&& 0xff) + ((p >>> 8) &&& 0xff) + (p &&& 0xff)) / 3
  (((p >>> 24) <<< 24) ||| (g <<< 16) ||| (g <<< 8) ||| g) % 2 ^ 32

/-- The function `makePaletteGray(palette)`: the loop over
`i < AVPALETTE_COUNT` rewriting `palette[i]` in place. -/
def makePaletteGray (palette : List Nat) : List Nat :=
  (List.range AVPALETTE_COUNT).foldl
    (fun pal i =>
      match pal[i]? with
      | some p => pal.set i (grayEntry p)
      | none => pal)
    palette

/-- Conversion of an integer value to `int` (32 bits, two's complement): the
type of the elements of the stored table `std::vector<int> palette` (line 90),
on `palette.emplace_back(...)` and on every read of `palette[i]`. -/
def toInt32 (v : Int) : Int := (v + 2 ^ 31) % 2 ^ 32 - 2 ^ 31

/-- Lines 465-466, the body of the override loop at index `i`. The stored table
`SubImageFile::palette` is a `std::vector<int>` (line 90), so the entry read is
an `int`; the comparison with `unused_colour` widens it to `int64_t`, and the
assignment converts it to `uint32_t`. Reading past the stored table or writing
past the working palette is undefined. -/
def overrideEntry (palette : List Int) (work : List Nat) (i : Nat) : Option (List Nat) :=
  match palette[i]? with
  | none => none
  | some entry =>
    let c := toInt32 entry
    if c ≠ unused_colour then
      if i < work.length then some (work.set i (c % 2 ^ 32).toNat) else none
    else some work

/-- Lines 462-466: the working palette is the first `AVPALETTE_COUNT` entries
of the rect's palette `data[1]` (`memcpy`), overridden by the first
`palette_size` entries of the stored table. -/
def overriddenPalette (palette : List Int) (palette_size : Nat) (data1 : List Nat) :
    Option (List Nat) :=
  if data1.length < AVPALETTE_COUNT then none
  else (List.range palette_size).foldlM (overrideEntry palette) (data1.take AVPALETTE_COUNT)

/-- Lines 462-469: override, then `makePaletteGray` when `gray` is set. -/
def workingPalette (palette : List Int) (palette_size : Nat) (gray : Bool)
    (data1 : List Nat) : Option (List Nat) :=
  match overriddenPalette palette palette_size data1 with
  | none => none
  | some work => some (if gray then makePaletteGray work else work)

/-! ## Compositing (lines 471-501) -/

/-- The four destination planes: the plane of the alpha frame and the R, G, B
planes of the RGB frame, each a byte buffer addressed from its write
pointer. -/
structure Planes where
  a : List Nat
  r : List Nat
  g : List Nat
  b : List Nat
deriving DecidableEq, Repr

/-- Store `dst[off] = v`; undefined outside the buffer. -/
def writeByte (plane : List Nat) (off : Int) (v : Nat) : Option (List Nat) :=
  if 0 ≤ off ∧ off < plane.length then some (plane.set off.toNat v) else none

/-- Load `buf[off]`; undefined outside the buffer. -/
def readByte (buf : List Nat) (off : Int) : Option Nat :=
  if 0 ≤ off then buf[off.toNat]? else none

/-- Lines 490-493: the four stores of one pixel `argb` at offset `off`. -/
def putPixel (dst : Planes) (off : Int) (argb : Nat) : Option Planes :=
  match writeByte dst.a off ((argb >>> 24) &&& 0xff),
        writeByte dst.r off ((argb >>> 16) &&& 0xff),
        writeByte dst.g off ((argb >>> 8) &&& 0xff),
        writeByte dst.b off (argb &&& 0xff) with
  | some a, some r, some g, some b => some { a := a, r := r, g := g, b := b }
  | _, _, _, _ => none

/-- Lines 488-493, the body of the inner loop at column `x`, with the row
pointers `input` and `dst_*` at offsets `input` and `dst`. -/
def compositePixel (palette data0 : List Nat) (input dst : Int) (planes : Planes) (x : Nat) :
    Option Planes :=
  match readByte data0 (input + x) with
  | none => none
  | some index =>
    match palette[index]? with
    | none => none
    | some argb => putPixel planes (dst + x) argb

/-- Lines 486-494: the inner loop `for (x = 0; x < rect->w; ++x)`. -/
def compositeRow (palette data0 : List Nat) (input dst : Int) (w : Int) (planes : Planes) :
    Option Planes :=
  (List.range w.toNat).foldlM (compositePixel palette data0 input dst) planes

/-- The variables of the outer loop: the row pointers `input` and `dst_a`,
`dst_r`, `dst_g`, `dst_b` (the four advance together, so one offset stands for
them), and the planes. -/
structure RowCursor where
  input : Int
  dst : Int
  planes : Planes
deriving DecidableEq, Repr

/-- Lines 484-501, the body of the outer loop: one row, then the pointers
advance by `linesize[0]` and `stride`. -/
def compositeStep (palette : List Nat) (rect : AVSubtitleRect) (stride : Int)
    (cur : RowCursor) (_y : Nat) : Option RowCursor :=
  match compositeRow palette rect.data0 cur.input cur.dst rect.w cur.planes with
  | none => none
  | some planes =>
    some { input := cur.input + rect.linesize0, dst := cur.dst + stride, planes := planes }

/-- Lines 471-501: the pixel loop of one rect with the working palette
`palette`, the destination pointers starting at `rect->y * stride + rect->x`. -/
def compositeRect (palette : List Nat) (rect : AVSubtitleRect) (stride : Int)
    (planes : Planes) : Option Planes :=
  match (List.range rect.h.toNat).foldlM (compositeStep palette rect stride)
      { input := 0, dst := rect.y * stride + rect.x, planes := planes } with
  | none => none
  | some cur => some cur.planes

/-- Line 456: the rects the loop skips. -/
def skipsRect (rect : AVSubtitleRect) : Bool :=
  decide (rect.w ≤ 0) || decide (rect.h ≤ 0) ||
    decide (rect.type ≠ AVSubtitleType.SUBTITLE_BITMAP)

/-- Lines 454-501, the body of the loop over the rects of the decoded
subtitle. -/
def renderRect (palette : List Int) (palette_size : Nat) (gray : Bool) (stride : Int)
    (planes : Planes) (rect : AVSubtitleRect) : Option Planes :=
  if skipsRect rect then some planes
  else
    match workingPalette palette palette_size gray rect.data1 with
    | none => none
    | some work => compositeRect work rect stride planes

/-! ## The filter and `GetFrame` (lines 83-98, 314-336, 384-516) -/

/-- What the host provides for frames: the size `vi.width` x `vi.height`, the
pitch of the planes of a frame returned by `NewVideoFrame` (the source uses the
pitch of the RGB frame for all four planes), and the content `newPlane` such a
plane has on return (one value stands for every allocation). -/
structure Host where
  width : Nat
  height : Nat
  pitch : Nat
  newPlane : List Nat
deriving DecidableEq, Repr

/-- Lines 325-330: `memset(ptr, 0, vi.width)` on each of `vi.height` rows of a
newly allocated plane; the result is a plane of `blank_rgb` / `blank_alpha`.
The host allocates `pitch * height` bytes with `pitch >= width`, so every
store is inside the plane. -/
def blankPlane (host : Host) : List Nat :=
  (List.range host.height).foldl
    (fun plane y => (List.range host.width).foldl
      (fun plane x => plane.set (y * host.pitch + x) 0) plane)
    host.newPlane

/-- The host's `BitBlt(dstp, dst_pitch, srcp, src_pitch, row_size, height)`:
copies `height` rows of `row_size` bytes (between planes the host allocated,
so inside both). -/
def BitBlt (dstp : List Nat) (dst_pitch : Nat) (srcp : List Nat)
    (src_pitch row_size height : Nat) : List Nat :=
  (List.range height).foldl
    (fun dst y => (List.range row_size).foldl
      (fun dst x => dst.set (y * dst_pitch + x) (srcp.getD (y * src_pitch + x) 0)) dst)
    dstp

/-- Lines 391-398: the planes of the new frames `rgb` and `alpha`, after the
blank frames have been copied into them. -/
def freshPlanes (host : Host) : Planes :=
  let plane := BitBlt host.newPlane host.pitch (blankPlane host) host.pitch
    host.width host.height
  { a := plane, r := plane, g := plane, b := plane }

/-- A frame as `GetFrame` returns it: the R, G, B planes of the RGB frame, the
plane of the frame attached as property `_Alpha` (in `planes.a`), and the
property `text` when it is set. -/
structure VideoFrame where
  planes : Planes
  text : Option String
deriving DecidableEq, Repr

/-- The members of the filter that `GetFrame` only reads. `codec_id` is
`avctx->codec_id`. -/
structure Filter where
  subtitles : List Subtitle
  palette : List Int
  palette_size : Nat
  gray : Bool
  info : Bool
  flatten : Bool
  desc : String
  codec_id : AVCodecID
  host : Host

/-- The members `GetFrame` updates: the decoder context, `last_subtitle` and
`last_frame` (a `PVideoFrame`, `none` while null). Two counters that are not in
the source record what a call did: `decoded` lists the packets passed to
`avcodec_decode_subtitle2`, in order, and `composited` counts the rects whose
pixel loop ran. -/
structure RenderState (σ : Type) where
  avctx : σ
  last_subtitle : Int
  last_frame : Option VideoFrame
  decoded : List AVPacket
  composited : Nat

/-- The constant `INT_MIN`. -/
def INT_MIN : Int := -(2 ^ 31)

/-- The state the constructor leaves (line 333): `last_subtitle = INT_MIN`,
`last_frame` null. -/
def RenderState.start {σ : Type} (avctx : σ) : RenderState σ :=
  { avctx := avctx, last_subtitle := INT_MIN, last_frame := none, decoded := [],
    composited := 0 }

/-- The four `ThrowError` calls of `GetFrame` (lines 440, 443, 447, 450). -/
inductive RenderError where
  | failedToDecode
  | gotSubtitleSooner
  | gotNoSubtitle
  | numRectsZero
deriving DecidableEq, Repr

/-- The messages of the four errors. -/
def RenderError.message : RenderError → String
  | RenderError.failedToDecode => "SubImageFile: failed to decode subtitle."
  | RenderError.gotSubtitleSooner => "SubImageFile: got subtitle sooner than expected."
  | RenderError.gotNoSubtitle =>
    "SubImageFile: got no subtitle after decoding all the packets."
  | RenderError.numRectsZero => "SubImageFile: got subtitle with num_rects=0."

/-- One call of `avcodec_decode_subtitle2` from `GetFrame`. -/
def decodeCall {σ : Type} (dec : Decoder σ) (st : RenderState σ) (packet : AVPacket) :
    DecodeOutput σ × RenderState σ :=
  let out := dec.avcodec_decode_subtitle2 st.avctx packet
  (out, { st with avctx := out.avctx, decoded := st.decoded ++ [packet] })

/-- Line 386: the index of the subtitle to show on frame `n`. -/
def subtitleIndex (f : Filter) (n : Int) : Int :=
  if f.flatten then n else findSubtitleIndex n f.subtitles

/-- Lines 415-423: the packets of one earlier subtitle are decoded and the
results dropped. -/
def primeSubtitle {σ : Type} (dec : Decoder σ) (st : RenderState σ) (sub : Subtitle) :
    RenderState σ :=
  sub.packets.foldl (fun st packet => (decodeCall dec st packet).2) st

/-- Lines 407-424: the loop `for (s = max(0, subtitle_index - 10);
s < subtitle_index; ++s)`; `subtitles[s]` outside the vector is undefined. -/
def primeDecoder {σ : Type} (dec : Decoder σ) (f : Filter) (st : RenderState σ)
    (subtitle_index : Int) : Option (RenderState σ) :=
  let first := max 0 (subtitle_index - 10)
  (List.range (subtitle_index - first).toNat).foldlM
    (fun st k =>
      match f.subtitles[first.toNat + k]? with
      | none => none
      | some sub => some (primeSubtitle dec st sub))
    st

/-- Lines 435-444: the loop over the packets of the subtitle, from the packet
at the head of the list on; the loop carries `got_subtitle` and `avsub`. An
error leaves the loop with the state reached. -/
def replayPackets {σ : Type} (dec : Decoder σ) :
    RenderState σ → Bool × AVSubtitle → List AVPacket →
      Except RenderError (Bool × AVSubtitle) × RenderState σ
  | st, carried, [] => (Except.ok carried, st)
  | st, _, packet :: rest =>
    let out := (decodeCall dec st packet).1
    let st1 := (decodeCall dec st packet).2
    if out.ret < 0 then (Except.error RenderError.failedToDecode, st1)
    else if out.got_sub = true ∧ rest ≠ [] then (Except.error RenderError.gotSubtitleSooner, st1)
    else replayPackets dec st1 (out.got_sub, out.avsub) rest

/-- Lines 452-502: the loop over the rects of the decoded subtitle, carrying the
planes and the count of rects composited. -/
def renderRects (f : Filter) : Planes × Nat → List AVSubtitleRect → Option (Planes × Nat)
  | acc, [] => some acc
  | (planes, count), rect :: rest =>
    match renderRect f.palette f.palette_size f.gray f.host.pitch planes rect with
    | none => none
    | some planes1 =>
      renderRects f (planes1, if skipsRect rect then count else count + 1) rest

/-- Lines 507-515: the frame returned, with its properties; `last_frame` is
assigned when `subtitle_index > -1`. -/
def finishFrame {σ : Type} (f : Filter) (st : RenderState σ) (subtitle_index : Int)
    (planes : Planes) : Except RenderError (Option VideoFrame) × RenderState σ :=
  let rgb : VideoFrame := { planes := planes, text := if f.info then some f.desc else none }
  (Except.ok (some rgb),
    if subtitle_index > -1 then { st with last_frame := some rgb } else st)

/-- Lines 391-515: `GetFrame` past the test of line 388. -/
def renderFrame {σ : Type} (dec : Decoder σ) (f : Filter) (st : RenderState σ)
    (subtitle_index : Int) :
    Option (Except RenderError (Option VideoFrame) × RenderState σ) :=
  let planes := freshPlanes f.host
  if subtitle_index > -1 then
    match (if f.codec_id = AVCodecID.AV_CODEC_ID_HDMV_PGS_SUBTITLE ∧
              st.last_subtitle ≠ subtitle_index - 1
           then primeDecoder dec f st subtitle_index else some st) with
    | none => none
    | some st1 =>
      let st2 := { st1 with last_subtitle := subtitle_index }
      match f.subtitles[subtitle_index.toNat]? with
      | none => none
      | some sub =>
        match replayPackets dec st2
            (false, { start_display_time := 0, end_display_time := 0, rects := [] })
            sub.packets with
        | (Except.error e, st3) => some (Except.error e, st3)
        | (Except.ok (got_subtitle, avsub), st3) =>
          if got_subtitle = false then some (Except.error RenderError.gotNoSubtitle, st3)
          else if avsub.num_rects = 0 then some (Except.error RenderError.numRectsZero, st3)
          else
            match renderRects f (planes, st3.composited) avsub.rects with
            | none => none
            | some (planes1, count) =>
              some (finishFrame f { st3 with composited := count } subtitle_index planes1)
  else some (finishFrame f st subtitle_index planes)

/-- The method `GetFrame(n, env)`: the frame returned or the error thrown, and
the state left. -/
def GetFrame {σ : Type} (dec : Decoder σ) (f : Filter) (st : RenderState σ) (n : Int) :
    Option (Except RenderError (Option VideoFrame) × RenderState σ) :=
  let subtitle_index := subtitleIndex f n
  if subtitle_index = st.last_subtitle then some (Except.ok st.last_frame, st)
  else renderFrame dec f st subtitle_index

/-- Entry `i` of the working palette as the specification states it, for an
override table `palette` of `palette_size` entries and the rect's own entry
`p`: the table's entry (as a 32-bit value) when `i < palette_size` and the
entry is not the sentinel `unused_colour`, and `p` otherwise. -/
def overrideAt (palette : List Int) (palette_size : Nat) (i : Nat) (p : Nat) : Nat :=
  match palette[i]? with
  | some c => if i < palette_size ∧ c ≠ unused_colour then (c % 2 ^ 32).toNat else p
  | none => p

/-- The gray level of a 32-bit palette entry: the integer average of its red,
green and blue bytes (bits 16-23, 8-15, 0-7). -/
def grayLevel (p : Nat) : Nat := (p / 2 ^ 16 % 256 + p / 2 ^ 8 % 256 + p % 256) / 3

/-- The rect palette of the worked example: three listed entries, the rest `0`. -/
def examplePalette : List Nat := [0x00000000, 0xAABBCCDD, 0x11223344] ++ List.replicate 253 0

/-- The rect of the worked example: a 2x2 bitmap at the origin with index buffer
`[1, 0, 0, 1]`. -/
def exampleRect : AVSubtitleRect :=
  { x := 0, y := 0, w := 2, h := 2, type := AVSubtitleType.SUBTITLE_BITMAP,
    data0 := [1, 0, 0, 1], linesize0 := 2, data1 := examplePalette }

/-- Four planes of `n` bytes, each byte `v`. -/
def constPlanes (n v : Nat) : Planes :=
  { a := List.replicate n v, r := List.replicate n v, g := List.replicate n v,
    b := List.replicate n v }

/-- A filter for worked examples: one VobSub subtitle shown on frames 30-59 of a
2x2 canvas with pitch 4, no palette override. -/
def exampleFilter : Filter :=
  { subtitles := [{ packets := [⟨1000, 0, 2⟩], start_frame := 30, end_frame := 60 }],
    palette := [-1], palette_size := 0, gray := false, info := false, flatten := false,
    desc := "", codec_id := AVCodecID.AV_CODEC_ID_DVD_SUBTITLE,
    host := { width := 2, height := 2, pitch := 4, newPlane := List.replicate 8 7 } }

/-- Each of the four planes has at least `n` bytes. -/
def Planes.atLeast (p : Planes) (n : Nat) : Prop :=
  n ≤ p.a.length ∧ n ≤ p.r.length ∧ n ≤ p.g.length ∧ n ≤ p.b.length

/-- The planes `p` and `q` have the same sizes. -/
def Planes.sameLength (p q : Planes) : Prop :=
  p.a.length = q.a.length ∧ p.r.length = q.r.length ∧ p.g.length = q.g.length ∧
    p.b.length = q.b.length

/-- The planes `p` and `q` hold the same bytes at offset `off`. -/
def Planes.sameAt (p q : Planes) (off : Nat) : Prop :=
  p.a[off]? = q.a[off]? ∧ p.r[off]? = q.r[off]? ∧ p.g[off]? = q.g[off]? ∧
    p.b[off]? = q.b[off]?

/-- At offset `off` the planes hold the four bytes of `argb`: bits 24-31 in the
alpha plane, 16-23 in red, 8-15 in green, 0-7 in blue. -/
def Planes.pixelAt (p : Planes) (off : Nat) (argb : Nat) : Prop :=
  p.a[off]? = some (argb / 2 ^ 24 % 256) ∧ p.r[off]? = some (argb / 2 ^ 16 % 256) ∧
    p.g[off]? = some (argb / 2 ^ 8 % 256) ∧ p.b[off]? = some (argb % 256)

/-! ## Frame count and palette argument (lines 103, 335-336, 519-537) -/

/-- Lines 335-336: the frame count `vi.num_frames` the filter reports, where
`num_frames` is the count of the host's clip. -/
def reportedNumFrames (flatten : Bool) (num_frames : Int) (subtitles : List Subtitle) : Int :=
  if flatten then (subtitles.length : Int) else num_frames

/-- The constant `UINT32_MAX`. -/
def UINT32_MAX : Int := 2 ^ 32 - 1

/-- The two `ThrowError` calls of `Create_SubImageFile`: "the palette can have at
most 256 elements" (line 526) and "palette[i] has an invalid value" (line 531). -/
inductive PaletteError where
  | tooManyElements
  | invalidValue (i : Nat)
deriving DecidableEq, Repr

/-- Lines 528-534: the loop over the elements of `args[3]` from index `i` on;
`values` are the integers `AsInt()` returns for them (for a 32-bit `AsInt()`
they lie in `[-2^31, 2^31)`, where the comparisons of line 530 agree with the
exact ones used here), `palette` is the vector built so far. -/
def checkPaletteEntries : List Int → Nat → List Int → Except PaletteError (List Int)
  | [], _, palette => Except.ok palette
  | v :: rest, i, palette =>
    if v < 0 ∨ (v > UINT32_MAX ∧ v ≠ unused_colour) then
      Except.error (PaletteError.invalidValue i)
    else checkPaletteEntries rest (i + 1) (palette ++ [toInt32 v])

/-- Lines 521-537 of `Create_SubImageFile`: the vector `palette` handed to the
constructor; `args3` is `none` when `args[3]` is not defined. -/
def createPalette (args3 : Option (List Int)) : Except PaletteError (List Int) :=
  match args3 with
  | none => Except.ok [-1]
  | some values =>
    if values.length > AVPALETTE_COUNT then Except.error PaletteError.tooManyElements
    else checkPaletteEntries values 0 []

/-- Line 103: `palette_size = (palette[0] == -1) ? 0 : palette.size()`;
`palette[0]` of an empty vector has no defined value. -/
def paletteSize (palette : List Int) : Option Nat :=
  match palette[0]? with
  | none => none
  | some first => if first = -1 then some 0 else some palette.length

/-- The condition under which the claim accepts an override array: at most 256
entries, each a 32-bit colour or the value `unused_colour`. -/
def AcceptablePalette (values : List Int) : Prop :=
  values.length ≤ 256 ∧ ∀ v ∈ values, (0 ≤ v ∧ v ≤ 2 ^ 32 - 1) ∨ v = 2 ^ 42

/-! ## Parts of `GetFrame`, and what a render feeds the decoder -/

/-- Lines 402-425: the priming loop runs when the decoder is the PGS one and
the subtitle rendered last is not the one before `subtitle_index`. -/
def primeBefore {σ : Type} (dec : Decoder σ) (f : Filter) (st : RenderState σ)
    (subtitle_index : Int) : Option (RenderState σ) :=
  if f.codec_id = AVCodecID.AV_CODEC_ID_HDMV_PGS_SUBTITLE ∧
      st.last_subtitle ≠ subtitle_index - 1
  then primeDecoder dec f st subtitle_index else some st

/-- Lines 431-450: the packets of the subtitle are decoded and the outcome is
checked; the result is the decoded `avsub` or the error thrown. -/
def replaySubtitle {σ : Type} (dec : Decoder σ) (st : RenderState σ) (sub : Subtitle) :
    Except RenderError AVSubtitle × RenderState σ :=
  match replayPackets dec st
      (false, { start_display_time := 0, end_display_time := 0, rects := [] })
      sub.packets with
  | (Except.error e, st3) => (Except.error e, st3)
  | (Except.ok (got_subtitle, avsub), st3) =>
    if got_subtitle = false then (Except.error RenderError.gotNoSubtitle, st3)
    else if avsub.num_rects = 0 then (Except.error RenderError.numRectsZero, st3)
    else (Except.ok avsub, st3)

/-- The outputs of the decoder on `packets`, fed in order from the context
`avctx`. -/
def decodeTrace {σ : Type} (dec : Decoder σ) : σ → List AVPacket → List (DecodeOutput σ)
  | _, [] => []
  | avctx, packet :: rest =>
    dec.avcodec_decode_subtitle2 avctx packet ::
      decodeTrace dec (dec.avcodec_decode_subtitle2 avctx packet).avctx rest

/-- The outcome the claim assigns to a replay with decoder outputs `outs`: the
first packet that reports an error, or that materialises a subtitle without
being the last, decides (`failedToDecode` resp. `gotSubtitleSooner`); otherwise
the last packet decides: no subtitle is `gotNoSubtitle`, a subtitle without
rects is `numRectsZero`, and else the replay succeeds with its subtitle. -/
def classifyReplay {σ : Type} (outs : List (DecodeOutput σ)) : Except RenderError AVSubtitle :=
  match outs.dropLast.find? (fun out => decide (out.ret < 0) || out.got_sub) with
  | some out =>
    if out.ret < 0 then Except.error RenderError.failedToDecode
    else Except.error RenderError.gotSubtitleSooner
  | none =>
    match outs.getLast? with
    | none => Except.error RenderError.gotNoSubtitle
    | some last =>
      if last.ret < 0 then Except.error RenderError.failedToDecode
      else if last.got_sub = false then Except.error RenderError.gotNoSubtitle
      else if last.avsub.num_rects = 0 then Except.error RenderError.numRectsZero
      else Except.ok last.avsub

/-- The intervals the claim has primed before a render of interval `idx`:
`max(0, idx - 10), ..., idx - 1`, in ascending order. -/
def primingIntervals (idx : Nat) : List Nat := List.range' (idx - 10) (min idx 10)

/-- The payload packets of the intervals `indices`, in order. -/
def payloads (f : Filter) (indices : List Nat) : List AVPacket :=
  indices.flatMap (fun s =>
    match f.subtitles[s]? with
    | some sub => sub.packets
    | none => [])

/-- The packets the claim has fed to the decoder ahead of the payload of
interval `idx`, when the subtitle rendered last is `last`. -/
def primingFeed (f : Filter) (last idx : Int) : List AVPacket :=
  if f.codec_id = AVCodecID.AV_CODEC_ID_HDMV_PGS_SUBTITLE ∧ last ≠ idx - 1
  then payloads f (primingIntervals idx.toNat) else []

/-- The number of rects of a decoded subtitle whose pixel loop runs. -/
def compositedCount (rects : List AVSubtitleRect) : Nat :=
  (rects.filter (fun rect => !skipsRect rect)).length

/-- One render of interval `idx` took the state `st` to `st1`: the decoder was
fed the priming packets and then, once, the payload of the interval, and the
rects of the subtitle decoded from the payload were composited, once. -/
def RenderedOnce {σ : Type} (dec : Decoder σ) (f : Filter) (idx : Int)
    (st st1 : RenderState σ) : Prop :=
  ∃ sub stp avsub st3,
    f.subtitles[idx.toNat]? = some sub ∧
    primeBefore dec f st idx = some stp ∧
    replaySubtitle dec { stp with last_subtitle := idx } sub = (Except.ok avsub, st3) ∧
    st1.decoded = st.decoded ++ primingFeed f st.last_subtitle idx ++ sub.packets ∧
    st1.composited = st.composited + compositedCount avsub.rects

/-- The states of the filter: the one the constructor leaves, and every state
a defined `GetFrame` call leaves from one of them, whether it returned a frame
or threw. -/
inductive Reachable {σ : Type} (dec : Decoder σ) (f : Filter) : RenderState σ → Prop where
  | start (avctx : σ) : Reachable dec f (RenderState.start avctx)
  | step (st st1 : RenderState σ) (n : Int)
      (res : Except RenderError (Option VideoFrame)) :
      Reachable dec f st → GetFrame dec f st n = some (res, st1) → Reachable dec f st1

/-- A decoder for worked examples that counts its calls in its context: it
answers like `scriptedDecoder`, with the packet's `pts` as the colour of the
rect, except that its second call reports an error. -/
def flakyDecoder : Decoder Nat where
  avcodec_decode_subtitle2 := fun calls packet =>
    if calls = 1 then
      { avctx := calls + 1, ret := -12, got_sub := false,
        avsub := { start_display_time := 0, end_display_time := 0, rects := [] } }
    else
      { avctx := calls + 1, ret := 0, got_sub := true,
        avsub := { start_display_time := 0, end_display_time := 0,
                   rects := [{ x := 0, y := 0, w := 1, h := 1,
                               type := AVSubtitleType.SUBTITLE_BITMAP,
                               data0 := [0], linesize0 := 1,
                               data1 := List.replicate 256 packet.pts.toNat }] } }

/-- A filter for worked examples with two subtitles, shown on frames 0-5 and
6-9 of a 2x2 canvas with pitch 4. -/
def twoSubtitles (codec_id : AVCodecID) : Filter :=
  { subtitles := [{ packets := [⟨100, 0, 2⟩], start_frame := 0, end_frame := 6 },
                  { packets := [⟨200, 0, 2⟩], start_frame := 6, end_frame := 10 }],
    palette := [-1], palette_size := 0, gray := false, info := false, flatten := false,
    desc := "", codec_id := codec_id,
    host := { width := 2, height := 2, pitch := 4, newPlane := List.replicate 8 7 } }

/-! ## Theorems -/

theorem findSubtitleIndexFrom_none (frame : Int) (subs : List Subtitle) (k : Nat) :
    findSubtitleIndexFrom frame subs k = -1 ↔ ∀ s ∈ subs, ¬ s.covers frame := by
  induction subs generalizing k with
  | nil => simp [findSubtitleIndexFrom]
  | cons s rest ih =>
    unfold findSubtitleIndexFrom
    by_cases h : s.start_frame ≤ frame ∧ frame < s.end_frame
    · rw [if_pos h]
      constructor
      · intro hk; omega
      · intro hall; exact absurd h (hall s (List.mem_cons_self _ _))
    · rw [if_neg h, ih]
      constructor
      · intro hall t ht
        rcases List.mem_cons.mp ht with rfl | ht
        · exact h
        · exact hall t ht
      · intro hall t ht
        exact hall t (List.mem_cons_of_mem _ ht)

theorem findSubtitleIndexFrom_some (frame : Int) (subs : List Subtitle) (k : Nat)
    (h : findSubtitleIndexFrom frame subs k ≠ -1) :
    ∃ (i : Nat) (s : Subtitle), findSubtitleIndexFrom frame subs k = ((k + i : Nat) : Int) ∧
      subs[i]? = some s ∧ s.covers frame ∧
      ∀ (j : Nat) (t : Subtitle), j < i → subs[j]? = some t → ¬ t.covers frame := by
  induction subs generalizing k with
  | nil => simp [findSubtitleIndexFrom] at h
  | cons s rest ih =>
    unfold findSubtitleIndexFrom at h ⊢
    by_cases hc : s.start_frame ≤ frame ∧ frame < s.end_frame
    · refine ⟨0, s, ?_, by simp, hc, ?_⟩
      · rw [if_pos hc]; simp
      · intro j t hj; omega
    · rw [if_neg hc] at h ⊢
      obtain ⟨i, t, h1, h2, h3, h4⟩ := ih (k + 1) h
      refine ⟨i + 1, t, ?_, by simpa using h2, h3, ?_⟩
      · rw [h1]; congr 1; omega
      · intro j u hj hu
        cases j with
        | zero =>
          simp at hu
          subst hu
          exact hc
        | succ j =>
          simp at hu
          exact h4 j u (by omega) hu

/-- C1. Point-mode lookup: `findSubtitleIndex frame subs` is `-1` exactly when no
interval of `subs` covers `frame`; otherwise it is the index of an interval of
`subs` that covers `frame`, and no interval at a smaller index covers it. -/
theorem findSubtitleIndex_spec (frame : Int) (subs : List Subtitle) :
    (findSubtitleIndex frame subs = -1 ↔
      ¬ ∃ (i : Nat) (s : Subtitle), subs[i]? = some s ∧ s.covers frame) ∧
    (findSubtitleIndex frame subs = -1 ∨
      ∃ (i : Nat) (s : Subtitle), findSubtitleIndex frame subs = (i : Int) ∧
        i < subs.length ∧ subs[i]? = some s ∧ s.covers frame ∧
        ∀ (j : Nat) (t : Subtitle), j < i → subs[j]? = some t → ¬ t.covers frame) := by
  refine ⟨?_, ?_⟩
  · rw [findSubtitleIndex, findSubtitleIndexFrom_none]
    constructor
    · rintro hall ⟨i, s, hs, hc⟩
      exact hall s (List.getElem?_mem hs) hc
    · intro hno s hs hc
      obtain ⟨i, hi⟩ := List.getElem?_of_mem hs
      exact hno ⟨i, s, hi, hc⟩
  · by_cases h : findSubtitleIndex frame subs = -1
    · exact Or.inl h
    · right
      obtain ⟨i, s, h1, h2, h3, h4⟩ := findSubtitleIndexFrom_some frame subs 0 h
      refine ⟨i, s, ?_, ?_, h2, h3, h4⟩
      · rw [findSubtitleIndex, h1]; simp
      · by_contra hlen
        rw [List.getElem?_eq_none (by omega)] at h2
        exact Option.noConfusion h2


theorem getElem?_some_lt {α : Type} {l : List α} {i : Nat} {a : α} (h : l[i]? = some a) :
    i < l.length := by
  by_contra hlen
  rw [List.getElem?_eq_none (by omega)] at h
  exact Option.noConfusion h

theorem correctedAt_packets (T : Int) (subs : List Subtitle) (i : Nat) (s : Subtitle) :
    (correctedAt T subs i s).packets = s.packets := by
  unfold correctedAt; split <;> [split; skip] <;> rfl

theorem correctedAt_start_frame (T : Int) (subs : List Subtitle) (i : Nat) (s : Subtitle) :
    (correctedAt T subs i s).start_frame = s.start_frame := by
  unfold correctedAt; split <;> [split; skip] <;> rfl

theorem correctedAt_end_frame (T : Int) (subs : List Subtitle) (i : Nat) (s : Subtitle) :
    (correctedAt T subs i s).end_frame =
      if s.end_frame = 0 then
        match subs[i + 1]? with
        | some next => next.start_frame
        | none => T
      else s.end_frame := by
  unfold correctedAt; split <;> [split; skip] <;> rfl

theorem correctEndFrameAt_length (T : Int) (l : List Subtitle) (i : Nat) :
    (correctEndFrameAt T l i).length = l.length := by
  unfold correctEndFrameAt
  split
  · rfl
  · split
    · split
      · split <;> simp
      · simp
    · rfl

theorem correctEndFrames_upTo (T : Int) (subs : List Subtitle) (k : Nat) (hk : k ≤ subs.length) :
    ((List.range k).foldl (correctEndFrameAt T) subs).length = subs.length ∧
    ∀ (i : Nat) (s : Subtitle), subs[i]? = some s →
      ((List.range k).foldl (correctEndFrameAt T) subs)[i]? =
        some (if i < k then correctedAt T subs i s else s) := by
  induction k with
  | zero => simp
  | succ k ih =>
    obtain ⟨hlen, hget⟩ := ih (by omega)
    rw [List.range_succ, List.foldl_append]
    simp only [List.foldl_cons, List.foldl_nil]
    generalize (List.range k).foldl (correctEndFrameAt T) subs = r at hlen hget
    refine ⟨by rw [correctEndFrameAt_length, hlen], ?_⟩
    intro i s hs
    have hk' : k < subs.length := by omega
    have hrk : r[k]? = some subs[k] := by
      have := hget k subs[k] (by simp [hk'])
      simpa using this
    have hi := hget i s hs
    unfold correctEndFrameAt
    rw [hrk]
    simp only
    by_cases h0 : (subs[k]).end_frame = 0
    · rw [if_pos h0]
      by_cases hn : k + 1 < subs.length
      · have hrn : r[k + 1]? = some subs[k+1] := by
          have := hget (k+1) subs[k+1] (by simp [hn])
          simpa using this
        rw [if_pos (by omega), hrn]
        simp only
        by_cases hik : i = k
        · subst hik
          have hs' : s = subs[i] := by
            rw [List.getElem?_eq_getElem hk'] at hs
            exact (Option.some.inj hs).symm
          subst hs'
          rw [List.getElem?_set_self (by omega)]
          simp [correctedAt, h0, hn]
        · rw [List.getElem?_set_ne (by omega), hi]
          congr 1
          by_cases hlt : i < k
          · simp [hlt, show i < k + 1 by omega]
          · simp [hlt, show ¬ i < k + 1 by omega]
      · rw [if_neg (by omega)]
        by_cases hik : i = k
        · subst hik
          have hs' : s = subs[i] := by
            rw [List.getElem?_eq_getElem hk'] at hs
            exact (Option.some.inj hs).symm
          subst hs'
          rw [List.getElem?_set_self (by omega)]
          have : subs[i + 1]? = none := List.getElem?_eq_none (by omega)
          simp [correctedAt, h0, this]
        · rw [List.getElem?_set_ne (by omega), hi]
          congr 1
          by_cases hlt : i < k
          · simp [hlt, show i < k + 1 by omega]
          · simp [hlt, show ¬ i < k + 1 by omega]
    · rw [if_neg h0, hi]
      congr 1
      by_cases hik : i = k
      · subst hik
        have hs' : s = subs[i] := by
          rw [List.getElem?_eq_getElem hk'] at hs
          exact (Option.some.inj hs).symm
        subst hs'
        simp [correctedAt, h0]
      · by_cases hlt : i < k
        · simp [hlt, show i < k + 1 by omega]
        · simp [hlt, show ¬ i < k + 1 by omega]

theorem correctEndFrames_getElem? (T : Int) (subs : List Subtitle) (i : Nat) (s : Subtitle)
    (hs : subs[i]? = some s) :
    (correctEndFrames T subs)[i]? = some (correctedAt T subs i s) := by
  have h := (correctEndFrames_upTo T subs subs.length (le_refl _)).2 i s hs
  have hi : i < subs.length := by
    by_contra hlen
    rw [List.getElem?_eq_none (by omega)] at hs
    exact Option.noConfusion hs
  rw [if_pos hi] at h
  exact h

theorem correctEndFrames_length (T : Int) (subs : List Subtitle) :
    (correctEndFrames T subs).length = subs.length :=
  (correctEndFrames_upTo T subs subs.length (le_refl _)).1

/-- C2. End-time correction: the pass keeps the number of intervals, and interval
`i` keeps its payload and `start_frame`; its `end_frame` is the original one when
that was non-zero, the `start_frame` of interval `i + 1` when it was `0` and
`i + 1 < n`, and the total frame count `T` when it was `0` and `i` is last. -/
theorem correctEndFrames_spec (T : Int) (subs : List Subtitle) :
    (correctEndFrames T subs).length = subs.length ∧
    ∀ (i : Nat) (s : Subtitle), subs[i]? = some s →
      ∃ s', (correctEndFrames T subs)[i]? = some s' ∧
        s'.packets = s.packets ∧ s'.start_frame = s.start_frame ∧
        (s.end_frame ≠ 0 → s'.end_frame = s.end_frame) ∧
        (s.end_frame = 0 → ∀ next, subs[i + 1]? = some next →
          s'.end_frame = next.start_frame) ∧
        (s.end_frame = 0 → i + 1 = subs.length → s'.end_frame = T) := by
  refine ⟨correctEndFrames_length T subs, ?_⟩
  intro i s hs
  refine ⟨_, correctEndFrames_getElem? T subs i s hs, ?_, ?_, ?_, ?_, ?_⟩
  · unfold correctedAt; split <;> [split; skip] <;> rfl
  · unfold correctedAt; split <;> [split; skip] <;> rfl
  · intro h; simp [correctedAt, h]
  · intro h next hn; simp [correctedAt, h, hn]
  · intro h hl
    have : subs[i + 1]? = none := List.getElem?_eq_none (by omega)
    simp [correctedAt, h, this]
theorem natAbs_tmod (a b : Int) : (Int.tmod a b).natAbs = a.natAbs % b.natAbs := by
  cases a <;> cases b <;> simp [Int.tmod, Int.natAbs_ofNat, Int.natAbs_neg] <;> rfl

theorem gcdLoop_spec (fuel : Nat) (a b : Int) (h : b.natAbs < fuel) :
    ∃ g, gcdLoop fuel a b = some g ∧ g.natAbs = Int.gcd a b := by
  induction fuel generalizing a b with
  | zero => omega
  | succ fuel ih =>
    unfold gcdLoop
    by_cases hb : b = 0
    · subst hb
      exact ⟨a, by simp, by simp⟩
    · rw [if_neg hb]
      have hlt : (Int.tmod a b).natAbs < b.natAbs := by
        rw [natAbs_tmod]
        exact Nat.mod_lt _ (Int.natAbs_pos.mpr hb)
      obtain ⟨g, hg, hgcd⟩ := ih b (Int.tmod a b) (by omega)
      refine ⟨g, hg, ?_⟩
      rw [hgcd]
      show Nat.gcd b.natAbs (Int.tmod a b).natAbs = Nat.gcd a.natAbs b.natAbs
      rw [natAbs_tmod, Nat.gcd_comm, ← Nat.gcd_rec, Nat.gcd_comm]

theorem mul_tdiv_mul_left (g n d : Int) (hg : 0 < g) :
    Int.tdiv (g * n) (g * d) = Int.tdiv n d := by
  have key : ∀ m k : Nat, Int.tdiv (g * (m : Int)) (g * (k : Int)) = Int.tdiv m k := by
    intro m k
    rw [Int.tdiv_eq_ediv (by positivity) (by positivity),
      Int.tdiv_eq_ediv (by positivity) (by positivity)]
    exact Int.mul_ediv_mul_of_pos _ _ hg
  obtain ⟨m, rfl | rfl⟩ := Int.eq_nat_or_neg n <;>
  obtain ⟨k, rfl | rfl⟩ := Int.eq_nat_or_neg d
  · exact key m k
  · rw [mul_neg, Int.tdiv_neg, Int.tdiv_neg, key]
  · rw [mul_neg, Int.neg_tdiv, Int.neg_tdiv, key]
  · rw [mul_neg, mul_neg, Int.neg_tdiv_neg, Int.neg_tdiv_neg, key]

/-- What `muldivRational` returns on a valid rational and a non-zero divisor. -/
theorem muldivRational_eq (num den mul div : Int) (hden : den ≠ 0) (hdiv : div ≠ 0) :
    muldivRational num den mul div =
      some (Int.tdiv (num * mul) (Int.gcd (num * mul) (den * div)),
            Int.tdiv (den * div) (Int.gcd (num * mul) (den * div))) := by
  unfold muldivRational
  rw [if_neg hden, if_neg hdiv]
  obtain ⟨g, hg, hgcd⟩ := gcdLoop_spec ((den * div).natAbs + 1) (num * mul) (den * div)
    (Nat.lt_succ_self _)
  simp only [hg]
  have habs : (if g < 0 then -g else g) = ((Int.gcd (num * mul) (den * div) : Nat) : Int) := by
    rw [← hgcd]
    split <;> omega
  rw [habs]
  have hpos : Int.gcd (num * mul) (den * div) ≠ 0 := by
    intro h0
    have := (Int.gcd_eq_zero_iff.mp h0).2
    exact (mul_ne_zero hden hdiv) this
  rw [if_neg (by exact_mod_cast hpos)]

theorem tdiv_of_eq_mul (g x q : Int) (hg : g ≠ 0) (h : x = g * q) : Int.tdiv x g = q := by
  subst h
  exact Int.mul_tdiv_cancel_left _ hg

theorem tdiv_of_eq_mul_of_eq_mul (g n d n1 d1 : Int) (hg : 0 < g) (hn : n = g * n1)
    (hd : d = g * d1) : Int.tdiv n d = Int.tdiv n1 d1 := by
  subst hn hd
  exact mul_tdiv_mul_left _ _ _ hg

theorem gcd_cast_pos (n d : Int) (hd : d ≠ 0) : (0 : Int) < ((Int.gcd n d : Nat) : Int) := by
  have : Int.gcd n d ≠ 0 := fun h0 => hd (Int.gcd_eq_zero_iff.mp h0).2
  exact_mod_cast Nat.pos_of_ne_zero this

/-- C3. For a time base with non-zero denominator and a non-zero `fpsden`,
`timestampToFrameNumber` is defined and is the quotient, truncated toward zero,
of `time_base.num * fpsnum * pts` by `time_base.den * fpsden`. -/
theorem timestampToFrameNumber_eq (pts : Int) (time_base : AVRational) (fpsnum fpsden : Int)
    (hden : time_base.den ≠ 0) (hfps : fpsden ≠ 0) :
    timestampToFrameNumber pts time_base fpsnum fpsden =
      some (Int.tdiv (time_base.num * fpsnum * pts) (time_base.den * fpsden)) := by
  unfold timestampToFrameNumber
  rw [muldivRational_eq _ _ _ _ hden hfps]
  simp only
  generalize hN : time_base.num * fpsnum = N
  generalize hD : time_base.den * fpsden = D
  have hD0 : D ≠ 0 := hD ▸ mul_ne_zero hden hfps
  have hg1 := gcd_cast_pos N D hD0
  obtain ⟨n1, hn1⟩ := Int.gcd_dvd_left (a := N) (b := D)
  obtain ⟨d1, hd1⟩ := Int.gcd_dvd_right (a := N) (b := D)
  generalize ((Int.gcd N D : Nat) : Int) = g1 at hg1 hn1 hd1
  rw [tdiv_of_eq_mul g1 N n1 (ne_of_gt hg1) hn1, tdiv_of_eq_mul g1 D d1 (ne_of_gt hg1) hd1]
  have hd10 : d1 ≠ 0 := by
    rintro rfl
    rw [mul_zero] at hd1
    exact hD0 hd1
  rw [muldivRational_eq _ _ _ _ hd10 one_ne_zero]
  simp only [mul_one]
  have hg2 := gcd_cast_pos (n1 * pts) d1 hd10
  obtain ⟨n2, hn2⟩ := Int.gcd_dvd_left (a := n1 * pts) (b := d1)
  obtain ⟨d2, hd2⟩ := Int.gcd_dvd_right (a := n1 * pts) (b := d1)
  generalize ((Int.gcd (n1 * pts) d1 : Nat) : Int) = g2 at hg2 hn2 hd2
  rw [tdiv_of_eq_mul g2 _ n2 (ne_of_gt hg2) hn2, tdiv_of_eq_mul g2 _ d2 (ne_of_gt hg2) hd2]
  have hd20 : d2 ≠ 0 := by
    rintro rfl
    rw [mul_zero] at hd2
    exact hd10 hd2
  rw [if_neg hd20]
  congr 1
  rw [← tdiv_of_eq_mul_of_eq_mul g2 (n1 * pts) d1 n2 d2 hg2 hn2 hd2]
  exact (tdiv_of_eq_mul_of_eq_mul g1 (N * pts) D (n1 * pts) d1 hg1
    (by rw [hn1, mul_assoc]) hd1).symm


/-- C3 at 1 s in a 1/1000 time base and 24000/1001 fps: frame 23. -/
theorem timestampToFrameNumber_eq_witness :
    timestampToFrameNumber 1000 ⟨1, 1000⟩ 24000 1001 = some 23 :=
  timestampToFrameNumber_eq 1000 ⟨1, 1000⟩ 24000 1001 (by decide) (by decide)

theorem correctEndFrames_getElem?_inv (T : Int) (subs : List Subtitle) (i : Nat)
    (s1 : Subtitle) (h : (correctEndFrames T subs)[i]? = some s1) :
    ∃ s, subs[i]? = some s ∧ s1 = correctedAt T subs i s := by
  have hi : i < subs.length := by
    have := getElem?_some_lt h
    rwa [correctEndFrames_length] at this
  refine ⟨subs[i], by simp [hi], ?_⟩
  have := correctEndFrames_getElem? T subs i subs[i] (by simp [hi])
  rw [h] at this
  exact Option.some.inj this

theorem getLast?_some_getElem? {α : Type} {l : List α} {a : α} (h : l.getLast? = some a) :
    l[l.length - 1]? = some a ∧ l[l.length - 1 + 1]? = none ∧ 0 < l.length := by
  rw [List.getLast?_eq_getElem?] at h
  have := getElem?_some_lt h
  exact ⟨h, List.getElem?_eq_none (by omega), by omega⟩

theorem timelineInvariant_correct_iff (T : Int) (subs : List Subtitle) :
    TimelineInvariant T (correctEndFrames T subs) ↔ Correctable T subs := by
  constructor
  · rintro ⟨hall, hlast⟩
    refine ⟨?_, ?_, ?_⟩
    · intro i s hs hne
      have h1 := correctEndFrames_getElem? T subs i s hs
      have h2 := hall _ (List.getElem?_mem h1)
      rw [correctedAt_start_frame, correctedAt_end_frame, if_neg hne] at h2
      exact h2
    · intro i s n hs hn h0
      have h1 := correctEndFrames_getElem? T subs i s hs
      have h2 := hall _ (List.getElem?_mem h1)
      rw [correctedAt_start_frame, correctedAt_end_frame, if_pos h0, hn] at h2
      exact h2
    · intro l hl
      obtain ⟨h1, h2, h3⟩ := getLast?_some_getElem? hl
      have h4 := correctEndFrames_getElem? T subs _ l h1
      have hmem := hall _ (List.getElem?_mem h4)
      have hl1 : (correctEndFrames T subs).getLast? =
          some (correctedAt T subs (subs.length - 1) l) := by
        rw [List.getLast?_eq_getElem?, correctEndFrames_length, h4]
      have hle := hlast _ hl1
      rw [correctedAt_start_frame, correctedAt_end_frame] at hmem
      rw [correctedAt_end_frame] at hle
      constructor
      · intro h0
        rw [if_pos h0, h2] at hmem
        exact hmem
      · intro hne
        rw [if_neg hne] at hle
        exact hle
  · rintro ⟨ha, hb, hc⟩
    refine ⟨?_, ?_⟩
    · intro s1 hs1
      obtain ⟨i, hi⟩ := List.getElem?_of_mem hs1
      obtain ⟨s, hs, rfl⟩ := correctEndFrames_getElem?_inv T subs i s1 hi
      rw [correctedAt_start_frame, correctedAt_end_frame]
      by_cases h0 : s.end_frame = 0
      · rw [if_pos h0]
        cases hn : subs[i + 1]? with
        | some n => exact hb i s n hs hn h0
        | none =>
          have hlen : i + 1 = subs.length := by
            have h1 := getElem?_some_lt hs
            have h2 := List.getElem?_eq_none_iff.mp hn
            omega
          have hl : subs.getLast? = some s := by
            rw [List.getLast?_eq_getElem?, ← hlen]
            simpa using hs
          exact (hc s hl).1 h0
      · rw [if_neg h0]
        exact ha i s hs h0
    · intro l1 hl1
      obtain ⟨h1, _, h3⟩ := getLast?_some_getElem? hl1
      rw [correctEndFrames_length] at h1 h3
      obtain ⟨l, hl, rfl⟩ := correctEndFrames_getElem?_inv T subs _ l1 h1
      have hlast : subs.getLast? = some l := by
        rw [List.getLast?_eq_getElem?]; exact hl
      obtain ⟨_, h2, _⟩ := getLast?_some_getElem? hlast
      rw [correctedAt_end_frame]
      by_cases h0 : l.end_frame = 0
      · rw [if_pos h0, h2]
      · rw [if_neg h0]
        exact (hc l hlast).2 h0

theorem buildTimeline_of_readPackets {σ : Type} (cfg : StreamConfig) (dec : Decoder σ)
    (avctx : σ) (packets : List AVPacket) (st : BuildState σ)
    (hread : readPackets cfg dec (BuildState.start avctx) packets = some st)
    (hne : st.subtitles ≠ []) :
    buildTimeline cfg dec avctx packets =
      some (Except.ok (correctEndFrames cfg.num_frames st.subtitles, st.avctx)) := by
  unfold buildTimeline
  rw [hread]
  have : st.subtitles.length ≠ 0 := fun h => hne (List.length_eq_zero.mp h)
  simp [this]

/-- C4, amended. When the read loop produces at least one interval, the
constructor yields the corrected timeline, and that timeline satisfies the
invariant (every `start_frame < end_frame`, last `end_frame <= num_frames`)
exactly when the timeline before correction is `Correctable`. -/
theorem timeline_invariant_iff {σ : Type} (cfg : StreamConfig) (dec : Decoder σ)
    (avctx : σ) (packets : List AVPacket) (st : BuildState σ)
    (hread : readPackets cfg dec (BuildState.start avctx) packets = some st)
    (hne : st.subtitles ≠ []) :
    ∃ subs, buildTimeline cfg dec avctx packets = some (Except.ok (subs, st.avctx)) ∧
      (TimelineInvariant cfg.num_frames subs ↔ Correctable cfg.num_frames st.subtitles) :=
  ⟨_, buildTimeline_of_readPackets cfg dec avctx packets st hread hne,
    timelineInvariant_correct_iff _ _⟩

/-- C4 fails as stated: a PGS subtitle starting at 1000 ms and terminated at
1010 ms, on a 20-frame clip at 30 fps, gives the single interval `[30, 30)`,
which is empty and ends after the clip. -/
theorem timeline_invariant_counterexample :
    ∃ subs, buildTimeline (exampleConfig AVCodecID.AV_CODEC_ID_HDMV_PGS_SUBTITLE 20)
        scriptedDecoder () [⟨1000, 0, 2⟩, ⟨1010, 0, 0⟩, ⟨1010, 0, 1⟩]
        = some (Except.ok (subs, ())) ∧
      (∃ s ∈ subs, ¬ s.start_frame < s.end_frame) ∧
      (∃ l, subs.getLast? = some l ∧ ¬ l.end_frame ≤ 20) :=
  ⟨[⟨[⟨1000, 0, 2⟩], 30, 30⟩], rfl, ⟨_, List.mem_singleton.mpr rfl, by decide⟩,
    ⟨_, rfl, by decide⟩⟩

/-- The amended C4 at a two-subtitle PGS stream on a 100-frame clip. -/
theorem timeline_invariant_iff_witness :
    ∃ subs, buildTimeline (exampleConfig AVCodecID.AV_CODEC_ID_HDMV_PGS_SUBTITLE 100)
        scriptedDecoder () [⟨1000, 0, 2⟩, ⟨2000, 0, 0⟩, ⟨2000, 0, 1⟩, ⟨3000, 0, 2⟩]
        = some (Except.ok (subs, ())) ∧
      (TimelineInvariant 100 subs ↔
        Correctable 100 [⟨[⟨1000, 0, 2⟩], 30, 60⟩, ⟨[⟨3000, 0, 2⟩], 90, 0⟩]) :=
  timeline_invariant_iff (exampleConfig AVCodecID.AV_CODEC_ID_HDMV_PGS_SUBTITLE 100)
    scriptedDecoder () [⟨1000, 0, 2⟩, ⟨2000, 0, 0⟩, ⟨2000, 0, 1⟩, ⟨3000, 0, 2⟩]
    ⟨(), ⟨[], 90, 0⟩, [⟨[⟨1000, 0, 2⟩], 30, 60⟩, ⟨[⟨3000, 0, 2⟩], 90, 0⟩]⟩ rfl (by simp)

/-- C5, amended. For neighbouring intervals `i`, `i + 1` of a constructed
timeline: if the read loop left `end_frame = 0` at `i`, then after correction
interval `i` ends where interval `i + 1` starts; in general, after correction
`end_frame[i] <= start_frame[i + 1]` holds exactly when the read loop left
`end_frame[i] = 0` or set it to a value `<= start_frame[i + 1]`. -/
theorem timeline_ordered_iff {σ : Type} (cfg : StreamConfig) (dec : Decoder σ)
    (avctx : σ) (packets : List AVPacket) (st : BuildState σ) (i : Nat) (a b : Subtitle)
    (hread : readPackets cfg dec (BuildState.start avctx) packets = some st)
    (ha : st.subtitles[i]? = some a) (hb : st.subtitles[i + 1]? = some b) :
    ∃ subs a1 b1, buildTimeline cfg dec avctx packets = some (Except.ok (subs, st.avctx)) ∧
      subs[i]? = some a1 ∧ subs[i + 1]? = some b1 ∧
      (a.end_frame = 0 → a1.end_frame = b1.start_frame) ∧
      (a1.end_frame ≤ b1.start_frame ↔ (a.end_frame = 0 ∨ a.end_frame ≤ b.start_frame)) := by
  have hne : st.subtitles ≠ [] := by
    intro h
    rw [h] at ha
    simp at ha
  refine ⟨_, _, _, buildTimeline_of_readPackets cfg dec avctx packets st hread hne,
    correctEndFrames_getElem? _ _ i a ha, correctEndFrames_getElem? _ _ (i + 1) b hb, ?_, ?_⟩
  · intro h0
    rw [correctedAt_end_frame, correctedAt_start_frame, if_pos h0, hb]
  · rw [correctedAt_end_frame, correctedAt_start_frame]
    by_cases h0 : a.end_frame = 0
    · rw [if_pos h0, hb]
      simp [h0]
    · rw [if_neg h0]
      simp [h0]

/-- C5 fails as stated: two VobSub subtitles at 0 ms (displayed for 2000 ms) and
at 1000 ms give the intervals `[0, 60)` and `[30, 100)`, which both cover
frame 40. -/
theorem timeline_ordered_counterexample :
    ∃ subs a b, buildTimeline (exampleConfig AVCodecID.AV_CODEC_ID_DVD_SUBTITLE 100)
        scriptedDecoder () [⟨0, 0, 2002⟩, ⟨1000, 0, 2⟩] = some (Except.ok (subs, ())) ∧
      subs[0]? = some a ∧ subs[0 + 1]? = some b ∧ ¬ a.end_frame ≤ b.start_frame ∧
      a.covers 40 ∧ b.covers 40 :=
  ⟨[⟨[⟨0, 0, 2002⟩], 0, 60⟩, ⟨[⟨1000, 0, 2⟩], 30, 100⟩], _, _, rfl, rfl, rfl,
    by decide, by decide, by decide⟩

/-- The amended C5 at two PGS subtitles with no terminator in between. -/
theorem timeline_ordered_iff_witness :
    ∃ subs a1 b1, buildTimeline (exampleConfig AVCodecID.AV_CODEC_ID_HDMV_PGS_SUBTITLE 100)
        scriptedDecoder () [⟨1000, 0, 2⟩, ⟨3000, 0, 2⟩] = some (Except.ok (subs, ())) ∧
      subs[0]? = some a1 ∧ subs[0 + 1]? = some b1 ∧
      ((0 : Int) = 0 → a1.end_frame = b1.start_frame) ∧
      (a1.end_frame ≤ b1.start_frame ↔ ((0 : Int) = 0 ∨ (0 : Int) ≤ 90)) :=
  timeline_ordered_iff (exampleConfig AVCodecID.AV_CODEC_ID_HDMV_PGS_SUBTITLE 100)
    scriptedDecoder () [⟨1000, 0, 2⟩, ⟨3000, 0, 2⟩]
    ⟨(), ⟨[], 90, 0⟩, [⟨[⟨1000, 0, 2⟩], 30, 0⟩, ⟨[⟨3000, 0, 2⟩], 90, 0⟩]⟩ 0
    ⟨[⟨1000, 0, 2⟩], 30, 0⟩ ⟨[⟨3000, 0, 2⟩], 90, 0⟩ rfl rfl rfl


/-- On a non-empty timeline and a non-empty accumulator the zero-rect branch is
defined whenever the timestamp of the accumulator's first packet maps to a
frame: the accumulator is emptied, no interval is added, and the last interval
gets that frame as its `end_frame`. -/
theorem onSubtitleWithoutRects_of_front {σ : Type} (cfg : StreamConfig) (st : BuildState σ)
    (back : Subtitle) (front : AVPacket) (rest : List AVPacket) (f : Int)
    (hback : st.subtitles.getLast? = some back)
    (hacc : st.current_subtitle.packets = front :: rest)
    (hts : timestampToFrameNumber front.pts cfg.time_base cfg.fps_numerator
      cfg.fps_denominator = some f) :
    onSubtitleWithoutRects cfg st =
      some { st with
        subtitles := st.subtitles.dropLast ++ [{ back with end_frame := f }],
        current_subtitle := { st.current_subtitle with packets := [] } } := by
  have hlen : st.subtitles.length ≠ 0 := by
    intro h0
    rw [List.length_eq_zero.mp h0] at hback
    exact Option.noConfusion hback
  unfold onSubtitleWithoutRects setBackEndFrame
  rw [hback]
  simp only
  rw [if_pos hlen, hacc]
  simp only [List.head?_cons, hts]

/-- On an empty timeline the zero-rect branch has no defined result, whatever
the accumulator holds: line 272 calls `subtitles.back()` first. -/
theorem onSubtitleWithoutRects_of_nil {σ : Type} (cfg : StreamConfig) (st : BuildState σ)
    (hsubs : st.subtitles = []) : onSubtitleWithoutRects cfg st = none := by
  unfold onSubtitleWithoutRects
  rw [hsubs]
  rfl

/-- C6, at the failing inputs. First, a zero-rect subtitle decoded from a single
packet (`pts = 2000`, i.e. frame 60) while the accumulator is empty and one
interval `[30, ?)` exists: the read-loop iteration has no defined result,
because it reads `current_subtitle.packets.front()` of the empty accumulator,
although the event's timestamp maps to frame 60; consequently the whole
construction from the two packets is undefined. Second, a zero-rect subtitle
decoded while no interval exists yet (the accumulator holds the packet
`pts = 1000`): the iteration has no defined result either, because line 272
calls `subtitles.back()` on the empty timeline before the `size()` test. -/
theorem terminator_on_empty_accumulator :
    readPacket (exampleConfig AVCodecID.AV_CODEC_ID_DVD_SUBTITLE 100) scriptedDecoder
        { avctx := (), current_subtitle := ⟨[], 30, 0⟩,
          subtitles := [⟨[⟨1000, 0, 2⟩], 30, 0⟩] } ⟨2000, 0, 1⟩ = none ∧
    timestampToFrameNumber 2000 ⟨1, 1000⟩ 30 1 = some 60 ∧
    buildTimeline (exampleConfig AVCodecID.AV_CODEC_ID_DVD_SUBTITLE 100) scriptedDecoder ()
        [⟨1000, 0, 2⟩, ⟨2000, 0, 1⟩] = none ∧
    readPacket (exampleConfig AVCodecID.AV_CODEC_ID_DVD_SUBTITLE 100) scriptedDecoder
        { avctx := (), current_subtitle := ⟨[⟨1000, 0, 0⟩], 0, 0⟩, subtitles := [] }
        ⟨1010, 0, 1⟩ = none :=
  ⟨rfl, rfl, rfl, rfl⟩


theorem and_0xff (x : Nat) : x &&& 0xff = x % 256 :=
  Nat.and_pow_two_sub_one_eq_mod x 8

theorem pack_bytes (A g : Nat) (hg : g < 256) :
    (A <<< 24) ||| (g <<< 16) ||| (g <<< 8) ||| g = A * 2 ^ 24 + g * 2 ^ 16 + g * 2 ^ 8 + g := by
  rw [Nat.or_assoc, Nat.or_assoc]
  simp only [Nat.shiftLeft_eq]
  have s1 : g * 2 ^ 8 ||| g = 2 ^ 8 * g + g := by
    rw [Nat.mul_comm g]
    exact (Nat.mul_add_lt_is_or (by omega) g).symm
  have s2 : g * 2 ^ 16 ||| (2 ^ 8 * g + g) = 2 ^ 16 * g + (2 ^ 8 * g + g) := by
    rw [Nat.mul_comm g (2 ^ 16)]
    exact (Nat.mul_add_lt_is_or (by omega) g).symm
  have s3 : A * 2 ^ 24 ||| (2 ^ 16 * g + (2 ^ 8 * g + g)) =
      2 ^ 24 * A + (2 ^ 16 * g + (2 ^ 8 * g + g)) := by
    rw [Nat.mul_comm A]
    exact (Nat.mul_add_lt_is_or (by omega) A).symm
  rw [s1, s2, s3]
  ring

theorem grayEntry_eq (p : Nat) (hp : p < 2 ^ 32) :
    grayEntry p = (p / 2 ^ 24 % 256) * 2 ^ 24 + grayLevel p * 2 ^ 16 + grayLevel p * 2 ^ 8
      + grayLevel p := by
  unfold grayEntry
  simp only [and_0xff, Nat.shiftRight_eq_div_pow]
  have hg : (p / 2 ^ 16 % 256 + p / 2 ^ 8 % 256 + p % 256) / 3 < 256 := by omega
  have hA : p / 2 ^ 24 % 256 = p / 2 ^ 24 := Nat.mod_eq_of_lt (by omega)
  rw [pack_bytes _ _ hg, hA]
  unfold grayLevel
  have hA2 : p / 2 ^ 24 < 256 := by omega
  exact Nat.mod_eq_of_lt (by omega)

theorem makePaletteGray_upTo (palette : List Nat) (k : Nat) :
    ((List.range k).foldl
      (fun pal i =>
        match pal[i]? with
        | some p => pal.set i (grayEntry p)
        | none => pal) palette).length = palette.length ∧
    ∀ (i p : Nat), palette[i]? = some p →
      ((List.range k).foldl
        (fun pal i =>
          match pal[i]? with
          | some p => pal.set i (grayEntry p)
          | none => pal) palette)[i]? = some (if i < k then grayEntry p else p) := by
  induction k with
  | zero => simp
  | succ k ih =>
    obtain ⟨hlen, hget⟩ := ih
    rw [List.range_succ, List.foldl_append]
    simp only [List.foldl_cons, List.foldl_nil]
    generalize (List.range k).foldl _ palette = r at hlen hget
    constructor
    · split <;> simp [hlen]
    · intro i p hp
      have hi := hget i p hp
      by_cases hik : i = k
      · subst hik
        rw [hi]
        simp only [lt_self_iff_false, if_false]
        rw [List.getElem?_set_self (by
          by_contra hlen'
          rw [List.getElem?_eq_none (by omega)] at hi
          exact Option.noConfusion hi)]
        simp
      · have hne : (if i < k + 1 then grayEntry p else p) = (if i < k then grayEntry p else p) := by
          by_cases hlt : i < k
          · simp [hlt, show i < k + 1 by omega]
          · simp [hlt, show ¬ i < k + 1 by omega]
        rw [hne]
        split
        · rw [List.getElem?_set_ne (by omega), hi]
        · exact hi

theorem makePaletteGray_getElem? (palette : List Nat) (i p : Nat) (hi : i < 256)
    (hp : palette[i]? = some p) : (makePaletteGray palette)[i]? = some (grayEntry p) := by
  have := (makePaletteGray_upTo palette AVPALETTE_COUNT).2 i p hp
  rw [if_pos (by unfold AVPALETTE_COUNT; exact hi)] at this
  exact this


/-- C9. Grayscale: entry `i` of `makePaletteGray palette` keeps the alpha byte of
the 32-bit entry `p = palette[i]` and has the gray level
`g = (R + G + B) / 3` of `p` in its red, green and blue bytes; and with
`gray` set the working palette is `makePaletteGray` of the overridden
palette. -/
theorem makePaletteGray_spec (palette : List Nat) (i p : Nat) (hi : i < 256)
    (hp : palette[i]? = some p) (h32 : p < 2 ^ 32) :
    (makePaletteGray palette)[i]? =
      some ((p / 2 ^ 24 % 256) * 2 ^ 24 + grayLevel p * 2 ^ 16 + grayLevel p * 2 ^ 8
        + grayLevel p) ∧
    grayLevel p = (p / 2 ^ 16 % 256 + p / 2 ^ 8 % 256 + p % 256) / 3 ∧
    ∀ (stored : List Int) (palette_size : Nat) (data1 : List Nat),
      workingPalette stored palette_size true data1 =
        (workingPalette stored palette_size false data1).map makePaletteGray := by
  refine ⟨?_, rfl, ?_⟩
  · rw [makePaletteGray_getElem? palette i p hi hp, grayEntry_eq p h32]
  · intro stored palette_size data1
    unfold workingPalette
    cases overriddenPalette stored palette_size data1 <;> rfl

/-- C9 at the entry `0xFFC00000`: it becomes `0xFF404040`. -/
theorem makePaletteGray_spec_witness :
    (makePaletteGray (List.replicate 256 0xFFC00000))[0]? = some 0xFF404040 :=
  (makePaletteGray_spec (List.replicate 256 0xFFC00000) 0 0xFFC00000 (by decide) rfl
    (by decide)).1.trans (by decide)

theorem toInt32_ne_unused_colour (v : Int) : toInt32 v ≠ unused_colour := by
  unfold toInt32 unused_colour
  omega

theorem toInt32_emod (v : Int) : (toInt32 v % 2 ^ 32).toNat = (v % 2 ^ 32).toNat := by
  unfold toInt32
  omega

/-- The override loop, run for `k` entries: every entry below `k` is replaced by
the stored entry (as a 32-bit value), every other entry is kept. -/
theorem overrideEntry_upTo (palette : List Int) (init : List Nat) (k : Nat)
    (hk : k ≤ palette.length) (hk2 : k ≤ init.length) :
    ∃ work, (List.range k).foldlM (overrideEntry palette) init = some work ∧
      work.length = init.length ∧
      ∀ i : Nat,
        (i < k → work[i]? = (palette[i]?).map (fun c => (c % 2 ^ 32).toNat)) ∧
        (k ≤ i → work[i]? = init[i]?) := by
  induction k with
  | zero =>
    exact ⟨init, rfl, rfl, fun i => ⟨fun h => absurd h (Nat.not_lt_zero i), fun _ => rfl⟩⟩
  | succ k ih =>
    obtain ⟨r, hr, hlen, hget⟩ := ih (by omega) (by omega)
    rw [List.range_succ, List.foldlM_append, hr]
    simp only [Option.some_bind, List.foldlM_cons, List.foldlM_nil, Option.pure_def,
      Option.bind_eq_bind]
    have hck : palette[k]? = some palette[k] := List.getElem?_eq_getElem (by omega)
    unfold overrideEntry
    rw [hck]
    simp only
    rw [if_pos (toInt32_ne_unused_colour _), if_pos (by omega)]
    refine ⟨_, rfl, by simp [hlen], ?_⟩
    intro i
    refine ⟨?_, ?_⟩
    · intro hi
      by_cases hik : i = k
      · subst hik
        rw [List.getElem?_set_self (by omega), hck, toInt32_emod]
        rfl
      · rw [List.getElem?_set_ne (by omega)]
        exact (hget i).1 (by omega)
    · intro hi
      rw [List.getElem?_set_ne (by omega)]
      exact (hget i).2 (by omega)

theorem overriddenPalette_spec (palette : List Int) (palette_size : Nat) (data1 : List Nat)
    (hsize : palette_size ≤ palette.length) (h256 : palette_size ≤ AVPALETTE_COUNT)
    (hdata : AVPALETTE_COUNT ≤ data1.length) :
    ∃ work, overriddenPalette palette palette_size data1 = some work ∧
      work.length = AVPALETTE_COUNT ∧
      ∀ i : Nat, i < AVPALETTE_COUNT →
        (i < palette_size → work[i]? = (palette[i]?).map (fun c => (c % 2 ^ 32).toNat)) ∧
        (palette_size ≤ i → work[i]? = data1[i]?) := by
  unfold overriddenPalette
  rw [if_neg (by omega)]
  have hlen : (data1.take AVPALETTE_COUNT).length = AVPALETTE_COUNT := by
    rw [List.length_take]; omega
  obtain ⟨work, hw, hwl, hget⟩ := overrideEntry_upTo palette (data1.take AVPALETTE_COUNT)
    palette_size hsize (by omega)
  refine ⟨work, hw, by omega, ?_⟩
  intro i hi
  refine ⟨(hget i).1, ?_⟩
  intro hle
  rw [(hget i).2 hle, List.getElem?_take, if_pos hi]

/-- What lines 462-466 compute, for a stored table `palette` used up to
`palette_size <= 256` and a rect palette `data1` of at least 256 entries: the
working palette is defined, has 256 entries, every entry below `palette_size`
is the stored entry (as a 32-bit value) and every other entry is the rect's
own. No stored entry is left out: an `int` never equals `unused_colour`. -/
theorem workingPalette_stored (palette : List Int) (palette_size : Nat) (data1 : List Nat)
    (hsize : palette_size ≤ palette.length) (h256 : palette_size ≤ 256)
    (hdata : 256 ≤ data1.length) :
    ∃ work, workingPalette palette palette_size false data1 = some work ∧
      work.length = 256 ∧
      ∀ i : Nat, i < 256 →
        (∀ c : Int, i < palette_size → palette[i]? = some c →
          work[i]? = some (c % 2 ^ 32).toNat) ∧
        (palette_size ≤ i → work[i]? = data1[i]?) := by
  obtain ⟨work, hw, hlen, hget⟩ :=
    overriddenPalette_spec palette palette_size data1 hsize h256 hdata
  refine ⟨work, ?_, hlen, ?_⟩
  · unfold workingPalette
    rw [hw]
    rfl
  · intro i hi
    refine ⟨?_, (hget i hi).2⟩
    intro c hlt hc
    rw [(hget i hi).1 hlt, hc]
    rfl

theorem checkPaletteEntries_colours (values : List Int) (i : Nat) (palette : List Int)
    (hcol : ∀ v ∈ values, 0 ≤ v ∧ v ≤ 2 ^ 32 - 1) :
    checkPaletteEntries values i palette = Except.ok (palette ++ values.map toInt32) := by
  induction values generalizing i palette with
  | nil => simp [checkPaletteEntries]
  | cons v rest ih =>
    have hv := hcol v (List.mem_cons_self _ _)
    unfold checkPaletteEntries
    rw [if_neg (by unfold UINT32_MAX; omega),
      ih (i + 1) (palette ++ [toInt32 v]) (fun w hw => hcol w (List.mem_cons_of_mem _ hw))]
    simp

/-- Where the code does as C7 says: for an override array of 1 to 256 entries,
each a 32-bit colour (no entry is the sentinel) and the first not `0xFFFFFFFF`,
the array is accepted, `palette_size` is its length, and entry `i` of the
working palette is `overrideAt`: the array's entry below its length, the rect's
own entry from there on. -/
theorem workingPalette_of_colours (values : List Int) (data1 : List Nat)
    (hlen : values.length ≤ 256) (hcol : ∀ v ∈ values, 0 ≤ v ∧ v ≤ 2 ^ 32 - 1)
    (first : Int) (hfirst : values[0]? = some first) (hmark : first ≠ 0xFFFFFFFF)
    (hdata : 256 ≤ data1.length) :
    ∃ stored work, createPalette (some values) = Except.ok stored ∧
      paletteSize stored = some values.length ∧
      workingPalette stored values.length false data1 = some work ∧
      work.length = 256 ∧
      ∀ (i p : Nat), i < 256 → data1[i]? = some p →
        work[i]? = some (overrideAt values values.length i p) := by
  have hstored : createPalette (some values) = Except.ok (values.map toInt32) := by
    unfold createPalette AVPALETTE_COUNT
    simp only
    rw [if_neg (by omega), checkPaletteEntries_colours values 0 [] hcol]
    simp
  have hsize : paletteSize (values.map toInt32) = some values.length := by
    unfold paletteSize
    rw [List.getElem?_map, hfirst]
    simp only [Option.map_some']
    have hf := hcol first (List.getElem?_mem hfirst)
    rw [if_neg (by unfold toInt32; omega), List.length_map]
  obtain ⟨work, hw, hwlen, hget⟩ := workingPalette_stored (values.map toInt32) values.length
    data1 (by rw [List.length_map]) hlen hdata
  refine ⟨values.map toInt32, work, hstored, hsize, hw, hwlen, ?_⟩
  intro i p hi hp
  unfold overrideAt
  by_cases hlt : i < values.length
  · have hvi : values[i]? = some values[i] := List.getElem?_eq_getElem hlt
    have hc := hcol values[i] (List.getElem_mem _)
    rw [(hget i hi).1 (toInt32 values[i]) hlt (by rw [List.getElem?_map, hvi]; rfl), hvi]
    simp only
    rw [if_pos ⟨hlt, by unfold unused_colour; omega⟩, toInt32_emod]
  · rw [(hget i hi).2 (by omega), hp]
    cases values[i]? with
    | none => rfl
    | some c => simp only; rw [if_neg (fun h => hlt h.1)]

/-- C7, at the failing input: the claim's own override array
`[unused, 0xFF112233, unused]` over the rect palette
`[0x00000000, 0xAABBCCDD, 0x11223344, 0, ...]`. The array is accepted and stored
in the `std::vector<int>` as `[0, -15654349, 0]` with `palette_size = 3`. By the
claim entry 2 of the working palette is the rect's own `0x11223344`
(`overrideAt`); the code overwrites it with `0x00000000`, because the stored
`int` is not `unused_colour`. Entry 0 is overwritten with `0` as well, which is
also the rect's own value here, so compositing the 2x2 index buffer
`[1, 0, 0, 1]` writes `0xFF112233` at pixel (0,0) and `0x00000000` at pixel
(1,0). -/
theorem sentinel_entry_overwritten :
    createPalette (some [unused_colour, 0xFF112233, unused_colour]) =
        Except.ok [0, -15654349, 0] ∧
    paletteSize [0, -15654349, 0] = some 3 ∧
    overrideAt [unused_colour, 0xFF112233, unused_colour] 3 2 0x11223344 = 0x11223344 ∧
    (∃ work, workingPalette [0, -15654349, 0] 3 false examplePalette = some work ∧
      work[0]? = some 0x00000000 ∧ work[1]? = some 0xFF112233 ∧
      work[2]? = some 0x00000000) ∧
    renderRect [0, -15654349, 0] 3 false 2 (constPlanes 4 9) exampleRect =
      some { a := [0xFF, 0x00, 0x00, 0xFF], r := [0x11, 0x00, 0x00, 0x11],
             g := [0x22, 0x00, 0x00, 0x22], b := [0x33, 0x00, 0x00, 0x33] } :=
  ⟨rfl, rfl, by decide, ⟨_, by rfl, rfl, rfl, rfl⟩, by rfl⟩

theorem writeByte_spec (plane : List Nat) (off v : Nat) (h : off < plane.length) :
    ∃ q, writeByte plane (off : Int) v = some q ∧ q.length = plane.length ∧
      q[off]? = some v ∧ ∀ o : Nat, o ≠ off → q[o]? = plane[o]? := by
  refine ⟨plane.set off v, ?_, by simp, ?_, ?_⟩
  · unfold writeByte
    rw [if_pos ⟨by omega, by omega⟩]
    simp
  · rw [List.getElem?_set_self h]
  · intro o ho
    rw [List.getElem?_set_ne (by omega)]

theorem putPixel_spec (p : Planes) (off argb : Nat) (h : p.atLeast (off + 1)) :
    ∃ q, putPixel p (off : Int) argb = some q ∧ q.sameLength p ∧ q.pixelAt off argb ∧
      ∀ o : Nat, o ≠ off → q.sameAt p o := by
  obtain ⟨ha, hr, hg, hb⟩ := h
  obtain ⟨qa, ea, la, va, oa⟩ := writeByte_spec p.a off ((argb >>> 24) &&& 0xff) (by omega)
  obtain ⟨qr, er, lr, vr, or⟩ := writeByte_spec p.r off ((argb >>> 16) &&& 0xff) (by omega)
  obtain ⟨qg, eg, lg, vg, og⟩ := writeByte_spec p.g off ((argb >>> 8) &&& 0xff) (by omega)
  obtain ⟨qb, eb, lb, vb, ob⟩ := writeByte_spec p.b off (argb &&& 0xff) (by omega)
  refine ⟨{ a := qa, r := qr, g := qg, b := qb }, ?_, ⟨la, lr, lg, lb⟩, ?_, ?_⟩
  · unfold putPixel
    rw [ea, er, eg, eb]
  · refine ⟨?_, ?_, ?_, ?_⟩
    · rw [va, and_0xff, Nat.shiftRight_eq_div_pow]
    · rw [vr, and_0xff, Nat.shiftRight_eq_div_pow]
    · rw [vg, and_0xff, Nat.shiftRight_eq_div_pow]
    · rw [vb, and_0xff]
  · intro o ho
    exact ⟨oa o ho, or o ho, og o ho, ob o ho⟩

theorem Planes.atLeast_of_sameLength {p q : Planes} {n : Nat} (h : q.sameLength p)
    (hp : p.atLeast n) : q.atLeast n := by
  obtain ⟨h1, h2, h3, h4⟩ := h
  obtain ⟨p1, p2, p3, p4⟩ := hp
  exact ⟨by omega, by omega, by omega, by omega⟩

theorem Planes.sameLength_trans {p q r : Planes} (h1 : p.sameLength q) (h2 : q.sameLength r) :
    p.sameLength r :=
  ⟨h1.1.trans h2.1, h1.2.1.trans h2.2.1, h1.2.2.1.trans h2.2.2.1, h1.2.2.2.trans h2.2.2.2⟩

theorem Planes.pixelAt_of_sameAt {p q : Planes} {off argb : Nat} (h : q.sameAt p off)
    (hp : p.pixelAt off argb) : q.pixelAt off argb :=
  ⟨h.1.trans hp.1, h.2.1.trans hp.2.1, h.2.2.1.trans hp.2.2.1, h.2.2.2.trans hp.2.2.2⟩

/-- The inner loop, run for `k` columns of a row that starts at offset `input` of
the index buffer and `dst` of the planes. -/
theorem compositeRow_upTo (palette data0 : List Nat) (input dst : Nat) (p : Planes) (k : Nat)
    (hin : input + k ≤ data0.length) (hidx : ∀ v ∈ data0, v < palette.length)
    (hdst : p.atLeast (dst + k)) :
    ∃ q, (List.range k).foldlM (compositePixel palette data0 input dst) p = some q ∧
      q.sameLength p ∧
      (∀ x : Nat, x < k → ∃ index argb, data0[input + x]? = some index ∧
        palette[index]? = some argb ∧ q.pixelAt (dst + x) argb) ∧
      (∀ o : Nat, (o < dst ∨ dst + k ≤ o) → q.sameAt p o) := by
  induction k with
  | zero =>
    exact ⟨p, rfl, ⟨rfl, rfl, rfl, rfl⟩, fun x hx => absurd hx (Nat.not_lt_zero x),
      fun o _ => ⟨rfl, rfl, rfl, rfl⟩⟩
  | succ k ih =>
    obtain ⟨q, hq, hlen, hpix, hout⟩ := ih (by omega)
      ⟨by have := hdst.1; omega, by have := hdst.2.1; omega, by have := hdst.2.2.1; omega,
        by have := hdst.2.2.2; omega⟩
    rw [List.range_succ, List.foldlM_append, hq]
    simp only [Option.some_bind, List.foldlM_cons, List.foldlM_nil, Option.pure_def,
      Option.bind_eq_bind]
    have hk : input + k < data0.length := by omega
    have hidxk : data0[input + k] < palette.length := hidx _ (List.getElem_mem _)
    obtain ⟨q1, hq1, hlen1, hpix1, hout1⟩ := putPixel_spec q (dst + k) palette[data0[input + k]]
      (Planes.atLeast_of_sameLength hlen hdst)
    have hstep : compositePixel palette data0 input dst q k = some q1 := by
      unfold compositePixel readByte
      have e1 : ((input : Int) + (k : Int)).toNat = input + k := by omega
      rw [if_pos (by omega), e1, List.getElem?_eq_getElem hk]
      simp only
      rw [List.getElem?_eq_getElem hidxk]
      simp only
      have e2 : ((dst : Int) + (k : Int)) = ((dst + k : Nat) : Int) := by omega
      rw [e2]
      exact hq1
    rw [hstep]
    refine ⟨q1, by simp, Planes.sameLength_trans hlen1 hlen, ?_, ?_⟩
    · intro x hx
      by_cases hxk : x = k
      · subst hxk
        exact ⟨_, _, List.getElem?_eq_getElem hk, List.getElem?_eq_getElem hidxk, hpix1⟩
      · obtain ⟨index, argb, h1, h2, h3⟩ := hpix x (by omega)
        exact ⟨index, argb, h1, h2, Planes.pixelAt_of_sameAt (hout1 _ (by omega)) h3⟩
    · intro o ho
      have h1 := hout1 o (by omega)
      have h2 := hout o (by omega)
      exact ⟨h1.1.trans h2.1, h1.2.1.trans h2.2.1, h1.2.2.1.trans h2.2.2.1,
        h1.2.2.2.trans h2.2.2.2⟩

/-- The outer loop, run for `k` rows: the row pointers have advanced `k` times,
and every pixel of the rows done holds its palette colour. `W`, `L`, `S`, `B`
are the rect's width, its `linesize[0]`, the stride and the offset of the
rect's origin, as natural numbers. -/
theorem compositeStep_upTo (palette : List Nat) (rect : AVSubtitleRect) (stride : Int)
    (planes : Planes) (W L S B H : Nat)
    (hW : rect.w = (W : Int)) (hL : rect.linesize0 = (L : Int)) (hS : stride = (S : Int))
    (hWL : W ≤ L) (hWS : W ≤ S) (hdata : H * L ≤ rect.data0.length)
    (hidx : ∀ v ∈ rect.data0, v < palette.length)
    (hfit : ∀ y : Nat, y < H → planes.atLeast (B + y * S + W))
    (k : Nat) (hk : k ≤ H) :
    ∃ cur, (List.range k).foldlM (compositeStep palette rect stride)
        { input := 0, dst := (B : Int), planes := planes } = some cur ∧
      cur.input = ((k * L : Nat) : Int) ∧ cur.dst = ((B + k * S : Nat) : Int) ∧
      cur.planes.sameLength planes ∧
      ∀ y x : Nat, y < k → x < W → ∃ index argb, rect.data0[y * L + x]? = some index ∧
        palette[index]? = some argb ∧ cur.planes.pixelAt (B + y * S + x) argb := by
  induction k with
  | zero =>
    refine ⟨_, rfl, by simp, by simp, ⟨rfl, rfl, rfl, rfl⟩, ?_⟩
    intro y x hy
    exact absurd hy (Nat.not_lt_zero y)
  | succ k ih =>
    obtain ⟨cur, hcur, hinput, hdst, hlen, hpix⟩ := ih (by omega)
    rw [List.range_succ, List.foldlM_append, hcur]
    simp only [Option.some_bind, List.foldlM_cons, List.foldlM_nil, Option.pure_def,
      Option.bind_eq_bind]
    have hrows : (k + 1) * L ≤ H * L := Nat.mul_le_mul_right L hk
    have hkL : k * L + W ≤ rect.data0.length := by
      rw [Nat.succ_mul] at hrows
      omega
    obtain ⟨q, hq, hqlen, hqpix, hqout⟩ := compositeRow_upTo palette rect.data0 (k * L)
      (B + k * S) cur.planes W hkL hidx
      (Planes.atLeast_of_sameLength hlen (hfit k (by omega)))
    have hrow : compositeRow palette rect.data0 cur.input cur.dst rect.w cur.planes = some q := by
      unfold compositeRow
      rw [hinput, hdst, hW, Int.toNat_ofNat]
      exact hq
    unfold compositeStep
    rw [hrow]
    refine ⟨{ input := cur.input + rect.linesize0, dst := cur.dst + stride, planes := q },
      rfl, ?_, ?_, Planes.sameLength_trans hqlen hlen, ?_⟩
    · simp only [hinput, hL]
      push_cast
      ring
    · simp only [hdst, hS]
      push_cast
      ring
    · intro y x hy hx
      simp only
      by_cases hyk : y = k
      · subst hyk
        obtain ⟨index, argb, h1, h2, h3⟩ := hqpix x hx
        exact ⟨index, argb, h1, h2, h3⟩
      · obtain ⟨index, argb, h1, h2, h3⟩ := hpix y x (by omega) hx
        refine ⟨index, argb, h1, h2, Planes.pixelAt_of_sameAt (hqout _ (Or.inl ?_)) h3⟩
        have hyS : (y + 1) * S ≤ k * S := Nat.mul_le_mul_right S (by omega)
        rw [Nat.succ_mul] at hyS
        omega

theorem overrideEntry_length (palette : List Int) (work work1 : List Nat) (i : Nat)
    (h : overrideEntry palette work i = some work1) : work1.length = work.length := by
  unfold overrideEntry at h
  split at h
  · exact Option.noConfusion h
  · simp only at h
    split at h
    · split at h
      · rw [← Option.some.inj h]; simp
      · exact Option.noConfusion h
    · rw [← Option.some.inj h]

theorem foldlM_overrideEntry_length (palette : List Int) (indices : List Nat)
    (work work1 : List Nat)
    (h : indices.foldlM (overrideEntry palette) work = some work1) :
    work1.length = work.length := by
  induction indices generalizing work with
  | nil =>
    simp only [List.foldlM_nil, Option.pure_def] at h
    rw [← Option.some.inj h]
  | cons i rest ih =>
    rw [List.foldlM_cons] at h
    cases hstep : overrideEntry palette work i with
    | none => rw [hstep] at h; exact Option.noConfusion h
    | some w =>
      rw [hstep] at h
      rw [ih w h, overrideEntry_length palette work w i hstep]

theorem workingPalette_length (palette : List Int) (palette_size : Nat) (gray : Bool)
    (data1 work : List Nat) (h : workingPalette palette palette_size gray data1 = some work) :
    work.length = AVPALETTE_COUNT := by
  unfold workingPalette at h
  cases hover : overriddenPalette palette palette_size data1 with
  | none => rw [hover] at h; exact Option.noConfusion h
  | some w =>
    rw [hover] at h
    have hw : w.length = AVPALETTE_COUNT := by
      unfold overriddenPalette at hover
      split at hover
      · exact Option.noConfusion hover
      · rw [foldlM_overrideEntry_length _ _ _ _ hover, List.length_take]
        omega
    have h' := Option.some.inj h
    rw [← h']
    cases gray
    · exact hw
    · simp only [if_true]
      unfold makePaletteGray
      rw [(makePaletteGray_upTo w AVPALETTE_COUNT).1, hw]

/-- The pixel loop of a rect inside a `width` x `height` canvas. -/
theorem compositeRect_pixels (palette : List Nat) (rect : AVSubtitleRect) (stride : Int)
    (planes : Planes) (width height : Nat)
    (hw : 0 < rect.w) (hh : 0 < rect.h) (hx : 0 ≤ rect.x) (hy : 0 ≤ rect.y)
    (hxw : rect.x + rect.w ≤ width) (hyh : rect.y + rect.h ≤ height)
    (hstride : (width : Int) ≤ stride)
    (hplanes : planes.atLeast (stride.toNat * height))
    (hline : rect.w ≤ rect.linesize0)
    (hdata : rect.linesize0 * rect.h ≤ rect.data0.length)
    (hidx : ∀ v ∈ rect.data0, v < palette.length) :
    ∃ out, compositeRect palette rect stride planes = some out ∧
      ∀ x y : Nat, (x : Int) < rect.w → (y : Int) < rect.h →
        ∃ index argb,
          rect.data0[(y * rect.linesize0 + x).toNat]? = some index ∧
          palette[index]? = some argb ∧
          out.pixelAt ((rect.y + y) * stride + (rect.x + x)).toNat argb := by
  obtain ⟨W, hW⟩ := Int.eq_ofNat_of_zero_le (le_of_lt hw)
  obtain ⟨H, hH⟩ := Int.eq_ofNat_of_zero_le (le_of_lt hh)
  obtain ⟨X, hX⟩ := Int.eq_ofNat_of_zero_le hx
  obtain ⟨Y, hY⟩ := Int.eq_ofNat_of_zero_le hy
  obtain ⟨L, hL⟩ := Int.eq_ofNat_of_zero_le (le_trans (le_of_lt hw) hline)
  obtain ⟨S, hS⟩ := Int.eq_ofNat_of_zero_le (le_trans (Int.ofNat_nonneg width) hstride)
  rw [hW] at hw hxw hline
  rw [hH] at hh hyh hdata
  rw [hX] at hxw
  rw [hY] at hyh
  rw [hL] at hline hdata
  rw [hS] at hstride
  have hWL : W ≤ L := by exact_mod_cast hline
  have hWS : W ≤ S := by omega
  have hXW : X + W ≤ S := by omega
  have hYH : Y + H ≤ height := by omega
  have hdata' : H * L ≤ rect.data0.length := by
    have : ((L * H : Nat) : Int) ≤ rect.data0.length := by push_cast; exact hdata
    rw [Nat.mul_comm]
    exact_mod_cast this
  have hSn : stride.toNat = S := by rw [hS]; exact Int.toNat_ofNat S
  rw [hSn] at hplanes
  have hfit : ∀ y : Nat, y < H → planes.atLeast (Y * S + X + y * S + W) := by
    intro y hy'
    have h1 : (Y + y + 1) * S ≤ height * S := Nat.mul_le_mul_right S (by omega)
    have h2 : Y * S + X + y * S + W ≤ S * height := by
      rw [Nat.mul_comm S height]
      have : (Y + y + 1) * S = Y * S + y * S + S := by ring
      omega
    obtain ⟨p1, p2, p3, p4⟩ := hplanes
    exact ⟨by omega, by omega, by omega, by omega⟩
  obtain ⟨cur, hcur, _, _, _, hpix⟩ := compositeStep_upTo palette rect stride planes W L S
    (Y * S + X) H hW hL hS hWL hWS hdata' hidx hfit H (le_refl H)
  have hbase : rect.y * stride + rect.x = ((Y * S + X : Nat) : Int) := by
    rw [hY, hS, hX]; push_cast; ring
  refine ⟨cur.planes, ?_, ?_⟩
  · unfold compositeRect
    rw [hbase, hH, Int.toNat_ofNat, hcur]
  · intro x y hxlt hylt
    rw [hW] at hxlt
    rw [hH] at hylt
    obtain ⟨index, argb, h1, h2, h3⟩ := hpix y x (by omega) (by omega)
    refine ⟨index, argb, ?_, h2, ?_⟩
    · have : ((y : Int) * rect.linesize0 + (x : Int)).toNat = y * L + x := by
        rw [hL]
        have : ((y : Int) * (L : Int) + (x : Int)) = ((y * L + x : Nat) : Int) := by push_cast; ring
        rw [this]; exact Int.toNat_ofNat _
      rw [this]; exact h1
    · have : ((rect.y + (y : Int)) * stride + (rect.x + (x : Int))).toNat
          = Y * S + X + y * S + x := by
        rw [hY, hS, hX]
        have : (((Y : Int) + (y : Int)) * (S : Int) + ((X : Int) + (x : Int)))
            = ((Y * S + X + y * S + x : Nat) : Int) := by push_cast; ring
        rw [this]; exact Int.toNat_ofNat _
      rw [this]; exact h3

/-- C8. Pixel compositing of a rect that passes the filter of line 456 and lies
inside a `width` x `height` canvas whose planes have `stride >= width` bytes
per row: the rect is composited, and for every pixel `(x, y)` of the rect, with
`c = work[data0[y * linesize + x]]` its colour in the working palette `work`,
the planes hold at offset `(rect.y + y) * stride + (rect.x + x)` the bytes of
`c`: bits 24-31 in alpha, 16-23 in red, 8-15 in green, 0-7 in blue. -/
theorem renderRect_pixels (palette : List Int) (palette_size : Nat) (gray : Bool)
    (stride : Int) (planes : Planes) (rect : AVSubtitleRect) (width height : Nat)
    (work : List Nat)
    (hw : 0 < rect.w) (hh : 0 < rect.h)
    (htype : rect.type = AVSubtitleType.SUBTITLE_BITMAP)
    (hx : 0 ≤ rect.x) (hy : 0 ≤ rect.y)
    (hxw : rect.x + rect.w ≤ width) (hyh : rect.y + rect.h ≤ height)
    (hstride : (width : Int) ≤ stride)
    (hplanes : planes.atLeast (stride.toNat * height))
    (hline : rect.w ≤ rect.linesize0)
    (hdata : rect.linesize0 * rect.h ≤ rect.data0.length)
    (hbytes : ∀ v ∈ rect.data0, v < 256)
    (hwork : workingPalette palette palette_size gray rect.data1 = some work) :
    ∃ out, renderRect palette palette_size gray stride planes rect = some out ∧
      ∀ x y : Nat, (x : Int) < rect.w → (y : Int) < rect.h →
        ∃ index c,
          rect.data0[(y * rect.linesize0 + x).toNat]? = some index ∧
          work[index]? = some c ∧
          out.a[((rect.y + y) * stride + (rect.x + x)).toNat]? = some (c / 2 ^ 24 % 256) ∧
          out.r[((rect.y + y) * stride + (rect.x + x)).toNat]? = some (c / 2 ^ 16 % 256) ∧
          out.g[((rect.y + y) * stride + (rect.x + x)).toNat]? = some (c / 2 ^ 8 % 256) ∧
          out.b[((rect.y + y) * stride + (rect.x + x)).toNat]? = some (c % 256) := by
  have hlen := workingPalette_length palette palette_size gray rect.data1 work hwork
  obtain ⟨out, hout, hpix⟩ := compositeRect_pixels work rect stride planes width height
    hw hh hx hy hxw hyh hstride hplanes hline hdata
    (fun v hv => by rw [hlen]; exact hbytes v hv)
  refine ⟨out, ?_, ?_⟩
  · unfold renderRect skipsRect
    have h1 : ¬ rect.w ≤ 0 := by omega
    have h2 : ¬ rect.h ≤ 0 := by omega
    simp only [h1, h2, htype, decide_False, Bool.or_self, ne_eq, not_true_eq_false,
      Bool.false_eq_true, if_false, hwork]
    exact hout
  · intro x y hxlt hylt
    obtain ⟨index, c, h1, h2, h3⟩ := hpix x y hxlt hylt
    exact ⟨index, c, h1, h2, h3.1, h3.2.1, h3.2.2.1, h3.2.2.2⟩

/-- C8 at the 2x2 example rect on a 2x2 canvas with stride 4, with the stored
override table `[0, -15654349, 0]` (entry 1 is `0xFF112233` as an `int`): pixel
(0,0) has index 1, pixel (1,0) index 0, and the planes hold the bytes of the
two colours at offsets 0 and 1. -/
theorem renderRect_pixels_witness :
    ∃ out, renderRect [0, -15654349, 0] 3 false 4 (constPlanes 8 9)
        exampleRect = some out ∧
      (out.a[0]? = some 0xFF ∧ out.r[0]? = some 0x11 ∧ out.g[0]? = some 0x22 ∧
        out.b[0]? = some 0x33) ∧
      (out.a[1]? = some 0 ∧ out.r[1]? = some 0 ∧ out.g[1]? = some 0 ∧ out.b[1]? = some 0) := by
  obtain ⟨out, hout, hpix⟩ := renderRect_pixels [0, -15654349, 0] 3
    false 4 (constPlanes 8 9) exampleRect 2 2
    ([0x00000000, 0xFF112233, 0x00000000] ++ List.replicate 253 0)
    (by decide) (by decide) rfl (by decide) (by decide) (by decide) (by decide) (by decide)
    ⟨by decide, by decide, by decide, by decide⟩ (by decide) (by decide) (by decide) (by rfl)
  refine ⟨out, hout, ?_, ?_⟩
  · obtain ⟨index, c, h1, h2, ha, hr, hg, hb⟩ := hpix 0 0 (by decide) (by decide)
    have hi : index = 1 := (Option.some.inj h1).symm
    subst hi
    have hc : c = 0xFF112233 := (Option.some.inj h2).symm
    subst hc
    exact ⟨ha, hr, hg, hb⟩
  · obtain ⟨index, c, h1, h2, ha, hr, hg, hb⟩ := hpix 1 0 (by decide) (by decide)
    have hi : index = 0 := (Option.some.inj h1).symm
    subst hi
    have hc : c = 0 := (Option.some.inj h2).symm
    subst hc
    exact ⟨ha, hr, hg, hb⟩

theorem decodeCall_last {σ : Type} (dec : Decoder σ) (st : RenderState σ) (packet : AVPacket) :
    (decodeCall dec st packet).2.last_subtitle = st.last_subtitle ∧
    (decodeCall dec st packet).2.last_frame = st.last_frame := ⟨rfl, rfl⟩

theorem replayPackets_last {σ : Type} (dec : Decoder σ) (packets : List AVPacket)
    (st : RenderState σ) (carried : Bool × AVSubtitle) :
    (replayPackets dec st carried packets).2.last_subtitle = st.last_subtitle ∧
    (replayPackets dec st carried packets).2.last_frame = st.last_frame := by
  induction packets generalizing st carried with
  | nil => exact ⟨rfl, rfl⟩
  | cons packet rest ih =>
    unfold replayPackets
    simp only
    split
    · exact decodeCall_last dec st packet
    · split
      · exact decodeCall_last dec st packet
      · have := ih (decodeCall dec st packet).2
          ((decodeCall dec st packet).1.got_sub, (decodeCall dec st packet).1.avsub)
        rw [this.1, this.2]
        exact decodeCall_last dec st packet

theorem finishFrame_ok {σ : Type} (f : Filter) (st st1 : RenderState σ) (idx : Int)
    (planes : Planes) (frame : Option VideoFrame) (hidx : idx > -1)
    (h : finishFrame f st idx planes = (Except.ok frame, st1)) :
    st1.last_subtitle = st.last_subtitle ∧ st1.last_frame = frame := by
  simp only [finishFrame, hidx, if_true] at h
  injection h with h1 h2
  injection h1 with h1
  subst h1 h2
  exact ⟨rfl, rfl⟩

/-- A successful render of a subtitle leaves its index in `last_subtitle` and the
returned frame in `last_frame`. -/
theorem renderFrame_ok {σ : Type} (dec : Decoder σ) (f : Filter) (st st1 : RenderState σ)
    (idx : Int) (frame : Option VideoFrame) (hidx : idx > -1)
    (h : renderFrame dec f st idx = some (Except.ok frame, st1)) :
    st1.last_subtitle = idx ∧ st1.last_frame = frame := by
  unfold renderFrame at h
  simp only [hidx, if_true] at h
  split at h
  · exact Option.noConfusion h
  · split at h
    · exact Option.noConfusion h
    · split at h
      · simp at h
      · split at h
        · simp at h
        · split at h
          · simp at h
          · split at h
            · exact Option.noConfusion h
            · rename_i _ stp hprime _ sub hsub _ got avsub st3 hreplay hgot hrects _ planes1
                count hrender
              have hfin := finishFrame_ok f _ st1 idx planes1 frame hidx (Option.some.inj h)
              have hrep := replayPackets_last dec sub.packets
                { stp with last_subtitle := idx }
                (false, { start_display_time := 0, end_display_time := 0, rects := [] })
              rw [hreplay] at hrep
              exact ⟨hfin.1.trans hrep.1, hfin.2⟩

/-- C10. Cache hit: after a `GetFrame n` that returned `frame` for a frame `n`
whose subtitle index is not "none", a following `GetFrame m` with the same
subtitle index returns the same `frame` and leaves the whole state as it was:
`last_subtitle`, `last_frame`, the decoder context, the list of packets
decoded and the count of rects composited. -/
theorem GetFrame_cache_hit {σ : Type} (dec : Decoder σ) (f : Filter)
    (st st1 : RenderState σ) (n m : Int) (frame : Option VideoFrame)
    (hfirst : GetFrame dec f st n = some (Except.ok frame, st1))
    (hcovered : subtitleIndex f n > -1)
    (hsame : subtitleIndex f m = subtitleIndex f n) :
    GetFrame dec f st1 m = some (Except.ok frame, st1) := by
  unfold GetFrame at hfirst ⊢
  simp only at hfirst ⊢
  by_cases hhit : subtitleIndex f n = st.last_subtitle
  · rw [if_pos hhit] at hfirst
    injection hfirst with hfirst
    injection hfirst with h1 h2
    injection h1 with h1
    subst h1 h2
    rw [hsame, if_pos hhit]
  · rw [if_neg hhit] at hfirst
    obtain ⟨h1, h2⟩ := renderFrame_ok dec f st st1 _ frame hcovered hfirst
    rw [hsame, if_pos h1.symm, h2]

/-- C10 at the example filter: frame 30 is rendered, and a following request
for frame 45 of the same subtitle returns the same frame and state. -/
theorem GetFrame_cache_hit_witness :
    ∃ frame st1,
      GetFrame scriptedDecoder exampleFilter (RenderState.start ()) 30
        = some (Except.ok frame, st1) ∧
      st1.decoded = [⟨1000, 0, 2⟩] ∧ st1.composited = 1 ∧
      GetFrame scriptedDecoder exampleFilter st1 45 = some (Except.ok frame, st1) :=
  ⟨_, _, rfl, rfl, rfl,
    GetFrame_cache_hit scriptedDecoder exampleFilter (RenderState.start ()) _ 30 45 _ rfl
      (by decide) (by decide)⟩

/-! ### `muldivRational` in lowest terms, monotonicity of the timestamp mapping -/

/-- On a valid rational and a non-zero divisor `muldivRational` returns a pair
`(n, d)` with `d ≠ 0` that stands for the same fraction under truncating
division, whatever the numerator is multiplied by afterwards. -/
theorem muldivRational_tdiv (num den mul div : Int) (hden : den ≠ 0) (hdiv : div ≠ 0) :
    ∃ n d, muldivRational num den mul div = some (n, d) ∧ d ≠ 0 ∧
      ∀ k : Int, Int.tdiv (n * k) d = Int.tdiv (num * mul * k) (den * div) := by
  have hD0 : den * div ≠ 0 := mul_ne_zero hden hdiv
  have hg := gcd_cast_pos (num * mul) (den * div) hD0
  obtain ⟨n, hn⟩ := Int.gcd_dvd_left (a := num * mul) (b := den * div)
  obtain ⟨d, hd⟩ := Int.gcd_dvd_right (a := num * mul) (b := den * div)
  refine ⟨n, d, ?_, ?_, ?_⟩
  · rw [muldivRational_eq _ _ _ _ hden hdiv]
    generalize ((Int.gcd (num * mul) (den * div) : Nat) : Int) = g at hg hn hd
    rw [tdiv_of_eq_mul g _ n (ne_of_gt hg) hn, tdiv_of_eq_mul g _ d (ne_of_gt hg) hd]
  · rintro rfl
    rw [mul_zero] at hd
    exact hD0 hd
  · intro k
    generalize ((Int.gcd (num * mul) (den * div) : Nat) : Int) = g at hg hn hd
    exact (tdiv_of_eq_mul_of_eq_mul g (num * mul * k) (den * div) (n * k) d hg
      (by rw [hn, mul_assoc]) hd).symm

/-- The value of `timestampToFrameNumber` on a valid time base and frame rate. -/
theorem timestampToFrameNumber_value (pts : Int) (time_base : AVRational)
    (fpsnum fpsden : Int) (hden : time_base.den ≠ 0) (hfps : fpsden ≠ 0) :
    timestampToFrameNumber pts time_base fpsnum fpsden =
      some (Int.tdiv (time_base.num * fpsnum * pts) (time_base.den * fpsden)) := by
  obtain ⟨n1, d1, h1, hd1, hq1⟩ :=
    muldivRational_tdiv time_base.num time_base.den fpsnum fpsden hden hfps
  obtain ⟨n2, d2, h2, hd2, hq2⟩ := muldivRational_tdiv n1 d1 pts 1 hd1 one_ne_zero
  unfold timestampToFrameNumber
  rw [h1]
  simp only
  rw [h2]
  simp only
  rw [if_neg hd2]
  have e2 := hq2 1
  rw [mul_one, mul_one, mul_one] at e2
  rw [e2, hq1 pts]

/-- Truncating division by a positive number is monotone in the dividend. -/
theorem tdiv_le_tdiv_of_le (a b d : Int) (hd : 0 < d) (h : a ≤ b) :
    Int.tdiv a d ≤ Int.tdiv b d := by
  have hneg : ∀ x : Int, x < 0 → Int.tdiv x d = -((-x) / d) := by
    intro x hx
    have : Int.tdiv x d = -(Int.tdiv (-x) d) := by rw [Int.neg_tdiv, neg_neg]
    rw [this, Int.tdiv_eq_ediv (by omega) (le_of_lt hd)]
  by_cases ha : 0 ≤ a
  · rw [Int.tdiv_eq_ediv ha (le_of_lt hd), Int.tdiv_eq_ediv (le_trans ha h) (le_of_lt hd)]
    exact Int.ediv_le_ediv hd h
  · by_cases hb : 0 ≤ b
    · rw [hneg a (by omega), Int.tdiv_eq_ediv hb (le_of_lt hd)]
      have h1 : 0 ≤ (-a) / d := Int.ediv_nonneg (by omega) (le_of_lt hd)
      have h2 : 0 ≤ b / d := Int.ediv_nonneg hb (le_of_lt hd)
      omega
    · rw [hneg a (by omega), hneg b (by omega)]
      have := Int.ediv_le_ediv hd (show -b ≤ -a by omega)
      omega

/-- C14. Monotonicity: with positive time base and frame rate, both frame numbers
are defined and `t1 < t2` gives `timestampToFrameNumber t1 <= timestampToFrameNumber t2`. -/
theorem timestampToFrameNumber_mono (t1 t2 : Int) (time_base : AVRational)
    (fpsnum fpsden : Int) (hnum : 0 < time_base.num) (hden : 0 < time_base.den)
    (hfn : 0 < fpsnum) (hfd : 0 < fpsden) (hlt : t1 < t2) :
    ∃ f1 f2, timestampToFrameNumber t1 time_base fpsnum fpsden = some f1 ∧
      timestampToFrameNumber t2 time_base fpsnum fpsden = some f2 ∧ f1 ≤ f2 := by
  refine ⟨_, _, timestampToFrameNumber_value t1 time_base fpsnum fpsden (ne_of_gt hden)
    (ne_of_gt hfd), timestampToFrameNumber_value t2 time_base fpsnum fpsden (ne_of_gt hden)
    (ne_of_gt hfd), ?_⟩
  apply tdiv_le_tdiv_of_le _ _ _ (mul_pos hden hfd)
  exact mul_le_mul_of_nonneg_left (le_of_lt hlt) (le_of_lt (mul_pos hnum hfn))

/-- C14 at 33 ms and 34 ms, time base 1/1000, 30 fps: frames 0 and 1. -/
theorem timestampToFrameNumber_mono_witness :
    ∃ f1 f2, timestampToFrameNumber 33 ⟨1, 1000⟩ 30 1 = some f1 ∧
      timestampToFrameNumber 34 ⟨1, 1000⟩ 30 1 = some f2 ∧ f1 ≤ f2 :=
  timestampToFrameNumber_mono 33 34 ⟨1, 1000⟩ 30 1 (by decide) (by decide) (by decide)
    (by decide) (by decide)

theorem gcd_eq_one_of_eq_mul (g N D n d : Int) (hg : 0 < g) (hN : N = g * n)
    (hD : D = g * d) (hgcd : ((Int.gcd N D : Nat) : Int) = g) : Int.gcd n d = 1 := by
  subst hN hD
  rw [Int.gcd_mul_left] at hgcd
  have h1 : ((g.natAbs : Nat) : Int) = g := Int.natAbs_of_nonneg (le_of_lt hg)
  have h2 : (g.natAbs * Int.gcd n d : Nat) = g.natAbs * 1 := by
    have : ((g.natAbs * Int.gcd n d : Nat) : Int) = ((g.natAbs * 1 : Nat) : Int) := by
      rw [hgcd, mul_one, h1]
    exact_mod_cast this
  exact Nat.eq_of_mul_eq_mul_left (Int.natAbs_pos.mpr (ne_of_gt hg)) h2

/-- C15. On a valid rational (`den ≠ 0`) and a non-zero `div`, `muldivRational`
returns `(n, d)` with `n * (den * div) = (num * mul) * d`, `gcd(|n|, |d|) = 1`,
and `n`, `d` of the signs of `num * mul`, `den * div`. -/
theorem muldivRational_lowest_terms (num den mul div : Int) (hden : den ≠ 0)
    (hdiv : div ≠ 0) :
    ∃ n d, muldivRational num den mul div = some (n, d) ∧
      n * (den * div) = (num * mul) * d ∧ Nat.gcd n.natAbs d.natAbs = 1 ∧
      Int.sign n = Int.sign (num * mul) ∧ Int.sign d = Int.sign (den * div) := by
  have hD0 : den * div ≠ 0 := mul_ne_zero hden hdiv
  have hg := gcd_cast_pos (num * mul) (den * div) hD0
  obtain ⟨n, hn⟩ := Int.gcd_dvd_left (a := num * mul) (b := den * div)
  obtain ⟨d, hd⟩ := Int.gcd_dvd_right (a := num * mul) (b := den * div)
  have hone : Int.gcd n d = 1 :=
    gcd_eq_one_of_eq_mul _ (num * mul) (den * div) n d hg hn hd rfl
  have hsign : Int.sign ((Int.gcd (num * mul) (den * div) : Nat) : Int) = 1 :=
    Int.sign_eq_one_of_pos hg
  refine ⟨n, d, ?_, ?_, hone, ?_, ?_⟩
  · rw [muldivRational_eq _ _ _ _ hden hdiv]
    generalize ((Int.gcd (num * mul) (den * div) : Nat) : Int) = g at hg hn hd
    rw [tdiv_of_eq_mul g _ n (ne_of_gt hg) hn, tdiv_of_eq_mul g _ d (ne_of_gt hg) hd]
  · conv_lhs => rw [hd]
    conv_rhs => rw [hn]
    ring
  · conv_rhs => rw [hn, Int.sign_mul, hsign, one_mul]
  · conv_rhs => rw [hd, Int.sign_mul, hsign, one_mul]

/-- C15 at `6/4` scaled by `-10/15`: the result is `-1/1`. -/
theorem muldivRational_lowest_terms_witness :
    ∃ n d, muldivRational 6 4 (-10) 15 = some (n, d) ∧
      n * (4 * 15) = (6 * (-10)) * d ∧ Nat.gcd n.natAbs d.natAbs = 1 ∧
      Int.sign n = Int.sign (6 * (-10)) ∧ Int.sign d = Int.sign (4 * 15) :=
  muldivRational_lowest_terms 6 4 (-10) 15 (by decide) (by decide)

/-! ### Scenario A, palette argument, flatten mode -/

/-- The read loop does not read `num_frames`. -/
theorem readPackets_num_frames {σ : Type} (cfg : StreamConfig) (T : Int) (dec : Decoder σ)
    (packets : List AVPacket) (st : BuildState σ) :
    readPackets { cfg with num_frames := T } dec st packets = readPackets cfg dec st packets := by
  induction packets generalizing st with
  | nil => rfl
  | cons packet rest ih =>
    unfold readPackets
    have h : readPacket { cfg with num_frames := T } dec st packet = readPacket cfg dec st packet :=
      rfl
    rw [h]
    cases readPacket cfg dec st packet with
    | none => rfl
    | some st1 => exact ih st1

/-- C16, amended. Scenario A with the terminator assembled from two packets
(the first at 30 ms): for either codec and every total frame count `T`, the
constructor yields exactly the two intervals `[0, 1)` and `[1, T)`. The
terminator's frame is `0`, which the correction loop takes for "unknown" and
replaces by the next start frame, `1`. -/
theorem scenarioA_timeline (codec_id : AVCodecID) (T : Int) :
    buildTimeline (exampleConfig codec_id T) scriptedDecoder ()
        [⟨0, 0, 2⟩, ⟨30, 0, 0⟩, ⟨30, 0, 1⟩, ⟨60, 0, 2⟩] =
      some (Except.ok ([⟨[⟨0, 0, 2⟩], 0, 1⟩, ⟨[⟨60, 0, 2⟩], 1, T⟩], ())) := by
  have hread : readPackets (exampleConfig codec_id T) scriptedDecoder (BuildState.start ())
      [⟨0, 0, 2⟩, ⟨30, 0, 0⟩, ⟨30, 0, 1⟩, ⟨60, 0, 2⟩] =
      some ⟨(), ⟨[], 1, 0⟩, [⟨[⟨0, 0, 2⟩], 0, 0⟩, ⟨[⟨60, 0, 2⟩], 1, 0⟩]⟩ := by
    have h := readPackets_num_frames (exampleConfig codec_id 0) T scriptedDecoder
      [⟨0, 0, 2⟩, ⟨30, 0, 0⟩, ⟨30, 0, 1⟩, ⟨60, 0, 2⟩] (BuildState.start ())
    have h0 : readPackets (exampleConfig codec_id 0) scriptedDecoder (BuildState.start ())
        [⟨0, 0, 2⟩, ⟨30, 0, 0⟩, ⟨30, 0, 1⟩, ⟨60, 0, 2⟩] =
        some ⟨(), ⟨[], 1, 0⟩, [⟨[⟨0, 0, 2⟩], 0, 0⟩, ⟨[⟨60, 0, 2⟩], 1, 0⟩]⟩ := by
      cases codec_id <;> rfl
    exact h.trans h0
  rw [buildTimeline_of_readPackets _ _ _ _ _ hread (by simp)]
  rfl

/-- C16 fails as stated: with time base 1/1000 and 30 fps, 30 ms is frame 0 and
60 ms is frame 1, so scenario A on a 100-frame clip gives `[0, 1)` and
`[1, 100)`, not `[0, 30)` and `[2, 100)`; and with the terminator decoded from
a single packet the constructor has no defined result at all. -/
theorem scenarioA_counterexample :
    timestampToFrameNumber 30 ⟨1, 1000⟩ 30 1 = some 0 ∧
    timestampToFrameNumber 60 ⟨1, 1000⟩ 30 1 = some 1 ∧
    (∃ subs a b, buildTimeline (exampleConfig AVCodecID.AV_CODEC_ID_HDMV_PGS_SUBTITLE 100)
        scriptedDecoder () [⟨0, 0, 2⟩, ⟨30, 0, 0⟩, ⟨30, 0, 1⟩, ⟨60, 0, 2⟩]
        = some (Except.ok (subs, ())) ∧ subs = [a, b] ∧
      ¬ (a.start_frame = 0 ∧ a.end_frame = 30 ∧ b.start_frame = 2 ∧ b.end_frame = 100)) ∧
    buildTimeline (exampleConfig AVCodecID.AV_CODEC_ID_HDMV_PGS_SUBTITLE 100)
        scriptedDecoder () [⟨0, 0, 2⟩, ⟨30, 0, 1⟩, ⟨60, 0, 2⟩] = none :=
  ⟨rfl, rfl, ⟨_, ⟨[⟨0, 0, 2⟩], 0, 1⟩, ⟨[⟨60, 0, 2⟩], 1, 100⟩, rfl, rfl, by decide⟩, rfl⟩

theorem checkPaletteEntries_ok_iff (values : List Int) (i : Nat) (palette : List Int) :
    (∃ stored, checkPaletteEntries values i palette = Except.ok stored) ↔
      ∀ v ∈ values, (0 ≤ v ∧ v ≤ 2 ^ 32 - 1) ∨ v = 2 ^ 42 := by
  induction values generalizing i palette with
  | nil => simp [checkPaletteEntries]
  | cons v rest ih =>
    unfold checkPaletteEntries
    by_cases hv : v < 0 ∨ (v > UINT32_MAX ∧ v ≠ unused_colour)
    · rw [if_pos hv]
      constructor
      · rintro ⟨stored, h⟩
        exact Except.noConfusion h
      · intro hall
        have := hall v (List.mem_cons_self _ _)
        unfold UINT32_MAX unused_colour at hv
        omega
    · rw [if_neg hv, ih]
      constructor
      · intro hall w hw
        rcases List.mem_cons.mp hw with rfl | hw
        · unfold UINT32_MAX unused_colour at hv
          omega
        · exact hall w hw
      · intro hall w hw
        exact hall w (List.mem_cons_of_mem _ hw)

/-- The test of `Create_SubImageFile` throws no error exactly on the arrays the
claim accepts. -/
theorem createPalette_ok_iff (values : List Int) :
    (∃ stored, createPalette (some values) = Except.ok stored) ↔ AcceptablePalette values := by
  unfold createPalette AcceptablePalette AVPALETTE_COUNT
  by_cases hlen : values.length > 256
  · simp only [hlen, if_true]
    constructor
    · rintro ⟨stored, h⟩
      exact Except.noConfusion h
    · rintro ⟨h, _⟩
      omega
  · simp only [hlen, if_false]
    rw [checkPaletteEntries_ok_iff]
    constructor
    · intro h
      exact ⟨by omega, h⟩
    · intro h
      exact h.2

/-- C17, at the failing inputs. The empty array passes the test of
`Create_SubImageFile`, and then line 103 reads `palette[0]` of the empty
vector: no defined `palette_size`. An array `[unused_colour]` is stored as `[0]`,
so the render replaces palette entry 0 (`0xAABBCCDD` here) by `0`; an array
`[0xFFFFFFFF]` is stored as `[-1]`, which gives `palette_size = 0`, so the
render leaves entry 0 as it is. -/
theorem palette_argument_failures :
    (createPalette (some []) = Except.ok [] ∧ paletteSize [] = none) ∧
    (createPalette (some [unused_colour]) = Except.ok [0] ∧ paletteSize [0] = some 1 ∧
      ∃ work, workingPalette [0] 1 false (List.replicate 256 0xAABBCCDD) = some work ∧
        work[0]? = some 0) ∧
    (createPalette (some [0xFFFFFFFF]) = Except.ok [-1] ∧ paletteSize [-1] = some 0 ∧
      ∃ work, workingPalette [-1] 0 false (List.replicate 256 0xAABBCCDD) = some work ∧
        work[0]? = some 0xAABBCCDD) :=
  ⟨⟨rfl, rfl⟩, ⟨rfl, rfl, _, rfl, rfl⟩, ⟨rfl, rfl, _, rfl, rfl⟩⟩

/-- C18. Flatten mode: with `flatten` set the reported frame count is the number
of intervals, and every frame `0 <= n < count` resolves to index `n`, which is
an index of the timeline; without it the frame count is the host's and the
index is that of `findSubtitleIndex`. -/
theorem flatten_mode (f : Filter) (num_frames : Int) :
    (f.flatten = true →
      reportedNumFrames f.flatten num_frames f.subtitles = (f.subtitles.length : Int) ∧
      ∀ n : Int, 0 ≤ n → n < reportedNumFrames f.flatten num_frames f.subtitles →
        subtitleIndex f n = n ∧ ∃ sub, f.subtitles[n.toNat]? = some sub) ∧
    (f.flatten = false →
      reportedNumFrames f.flatten num_frames f.subtitles = num_frames ∧
      ∀ n : Int, subtitleIndex f n = findSubtitleIndex n f.subtitles) := by
  constructor
  · intro h
    unfold reportedNumFrames subtitleIndex
    rw [h]
    refine ⟨rfl, ?_⟩
    intro n h0 hn
    simp only [if_true] at hn ⊢
    refine ⟨trivial, ?_⟩
    have hlt : n.toNat < f.subtitles.length := by omega
    exact ⟨_, List.getElem?_eq_getElem hlt⟩
  · intro h
    unfold reportedNumFrames subtitleIndex
    rw [h]
    exact ⟨rfl, fun n => rfl⟩

/-! ### The parts of a render -/

/-- `GetFrame` past the cache test, for a subtitle index that is not "none", in
terms of its parts: priming, the replay of the payload, compositing. -/
theorem renderFrame_eq {σ : Type} (dec : Decoder σ) (f : Filter) (st : RenderState σ)
    (idx : Int) (hidx : idx > -1) :
    renderFrame dec f st idx =
      match primeBefore dec f st idx with
      | none => none
      | some stp =>
        match f.subtitles[idx.toNat]? with
        | none => none
        | some sub =>
          match replaySubtitle dec { stp with last_subtitle := idx } sub with
          | (Except.error e, st3) => some (Except.error e, st3)
          | (Except.ok avsub, st3) =>
            match renderRects f (freshPlanes f.host, st3.composited) avsub.rects with
            | none => none
            | some (planes1, count) =>
              some (finishFrame f { st3 with composited := count } idx planes1) := by
  unfold renderFrame primeBefore replaySubtitle
  simp only [hidx, if_true]
  split
  · rfl
  · split
    · rfl
    · split
      · rfl
      · split
        · rfl
        · split
          · rfl
          · rfl

theorem decodeCall_fields {σ : Type} (dec : Decoder σ) (st : RenderState σ)
    (packet : AVPacket) :
    (decodeCall dec st packet).2.decoded = st.decoded ++ [packet] ∧
    (decodeCall dec st packet).2.composited = st.composited ∧
    (decodeCall dec st packet).2.avctx =
      (dec.avcodec_decode_subtitle2 st.avctx packet).avctx ∧
    (decodeCall dec st packet).1 = dec.avcodec_decode_subtitle2 st.avctx packet :=
  ⟨rfl, rfl, rfl, rfl⟩

/-- The replay loop feeds the decoder a leading part of the packets, all of them
when it ends without error, and composites nothing. -/
theorem replayPackets_decoded {σ : Type} (dec : Decoder σ) (packets : List AVPacket)
    (st : RenderState σ) (carried : Bool × AVSubtitle) :
    (∃ fed, (replayPackets dec st carried packets).2.decoded = st.decoded ++ fed ∧
      fed <+: packets ∧
      (∀ r, (replayPackets dec st carried packets).1 = Except.ok r → fed = packets)) ∧
    (replayPackets dec st carried packets).2.composited = st.composited := by
  induction packets generalizing st carried with
  | nil =>
    exact ⟨⟨[], by simp [replayPackets], List.prefix_refl _, fun _ _ => rfl⟩, rfl⟩
  | cons packet rest ih =>
    unfold replayPackets
    simp only
    split
    · exact ⟨⟨[packet], rfl, by simp, fun r h => Except.noConfusion h⟩, rfl⟩
    · split
      · exact ⟨⟨[packet], rfl, by simp, fun r h => Except.noConfusion h⟩, rfl⟩
      · obtain ⟨⟨fed, h1, h2, h3⟩, h4⟩ := ih (decodeCall dec st packet).2
          ((decodeCall dec st packet).1.got_sub, (decodeCall dec st packet).1.avsub)
        refine ⟨⟨packet :: fed, ?_, ?_, ?_⟩, ?_⟩
        · rw [h1, (decodeCall_fields dec st packet).1]
          simp
        · exact List.cons_prefix_cons.mpr ⟨rfl, h2⟩
        · intro r hr
          rw [h3 r hr]
        · rw [h4]
          rfl

/-- The replay of a subtitle: as `replayPackets_decoded`, with the last subtitle
and frame kept. -/
theorem replaySubtitle_state {σ : Type} (dec : Decoder σ) (st : RenderState σ)
    (sub : Subtitle) :
    (∃ fed, (replaySubtitle dec st sub).2.decoded = st.decoded ++ fed ∧
      fed <+: sub.packets ∧
      (∀ avsub, (replaySubtitle dec st sub).1 = Except.ok avsub → fed = sub.packets)) ∧
    (replaySubtitle dec st sub).2.composited = st.composited ∧
    (replaySubtitle dec st sub).2.last_subtitle = st.last_subtitle ∧
    (replaySubtitle dec st sub).2.last_frame = st.last_frame := by
  have hd := replayPackets_decoded dec sub.packets st
    (false, { start_display_time := 0, end_display_time := 0, rects := [] })
  have hl := replayPackets_last dec sub.packets st
    (false, { start_display_time := 0, end_display_time := 0, rects := [] })
  unfold replaySubtitle
  generalize replayPackets dec st
    (false, { start_display_time := 0, end_display_time := 0, rects := [] }) sub.packets = r
    at hd hl
  obtain ⟨res, st3⟩ := r
  obtain ⟨⟨fed, h1, h2, h3⟩, h4⟩ := hd
  cases res with
  | error e =>
    exact ⟨⟨fed, h1, h2, fun a h => Except.noConfusion h⟩, h4, hl.1, hl.2⟩
  | ok r =>
    obtain ⟨got, avsub⟩ := r
    simp only
    split
    · exact ⟨⟨fed, h1, h2, fun a h => Except.noConfusion h⟩, h4, hl.1, hl.2⟩
    · split
      · exact ⟨⟨fed, h1, h2, fun a h => Except.noConfusion h⟩, h4, hl.1, hl.2⟩
      · exact ⟨⟨fed, h1, h2, fun a _ => h3 _ rfl⟩, h4, hl.1, hl.2⟩

theorem primeSubtitle_state {σ : Type} (dec : Decoder σ) (packets : List AVPacket)
    (st : RenderState σ) :
    (packets.foldl (fun st packet => (decodeCall dec st packet).2) st).decoded =
      st.decoded ++ packets ∧
    (packets.foldl (fun st packet => (decodeCall dec st packet).2) st).composited =
      st.composited ∧
    (packets.foldl (fun st packet => (decodeCall dec st packet).2) st).last_subtitle =
      st.last_subtitle ∧
    (packets.foldl (fun st packet => (decodeCall dec st packet).2) st).last_frame =
      st.last_frame := by
  induction packets generalizing st with
  | nil => simp
  | cons packet rest ih =>
    simp only [List.foldl_cons]
    obtain ⟨h1, h2, h3, h4⟩ := ih (decodeCall dec st packet).2
    refine ⟨?_, ?_, ?_, ?_⟩
    · rw [h1, (decodeCall_fields dec st packet).1]; simp
    · rw [h2]; rfl
    · rw [h3]; rfl
    · rw [h4]; rfl

/-- The priming loop over `n` intervals from interval `s` on, all inside the
timeline: it is defined and feeds the decoder their payloads, in order. -/
theorem primeLoop_upTo {σ : Type} (dec : Decoder σ) (f : Filter) (st : RenderState σ)
    (s n : Nat) (h : s + n ≤ f.subtitles.length) :
    ∃ stp, (List.range n).foldlM
        (fun st k =>
          match f.subtitles[s + k]? with
          | none => none
          | some sub => some (primeSubtitle dec st sub)) st = some stp ∧
      stp.decoded = st.decoded ++ payloads f (List.range' s n) ∧
      stp.composited = st.composited ∧ stp.last_subtitle = st.last_subtitle ∧
      stp.last_frame = st.last_frame := by
  induction n with
  | zero => exact ⟨st, rfl, by simp [payloads], rfl, rfl, rfl⟩
  | succ n ih =>
    obtain ⟨stp, hfold, h1, h2, h3, h4⟩ := ih (by omega)
    rw [List.range_succ, List.foldlM_append, hfold]
    simp only [Option.some_bind, List.foldlM_cons, List.foldlM_nil, Option.pure_def,
      Option.bind_eq_bind]
    have hsn : s + n < f.subtitles.length := by omega
    rw [List.getElem?_eq_getElem hsn]
    simp only [Option.some_bind]
    obtain ⟨p1, p2, p3, p4⟩ := primeSubtitle_state dec (f.subtitles[s + n]).packets stp
    refine ⟨_, rfl, ?_, ?_, ?_, ?_⟩
    · unfold primeSubtitle
      rw [p1, h1, List.range'_concat, payloads, payloads, List.flatMap_append]
      simp [List.getElem?_eq_getElem hsn]
    · unfold primeSubtitle; rw [p2, h2]
    · unfold primeSubtitle; rw [p3, h3]
    · unfold primeSubtitle; rw [p4, h4]

/-- The priming loop before a render of interval `idx` of the timeline: it is
defined and feeds the decoder the payloads of `primingIntervals idx`. -/
theorem primeDecoder_spec {σ : Type} (dec : Decoder σ) (f : Filter) (st : RenderState σ)
    (idx : Int) (h0 : 0 ≤ idx) (hlen : idx.toNat ≤ f.subtitles.length) :
    ∃ stp, primeDecoder dec f st idx = some stp ∧
      stp.decoded = st.decoded ++ payloads f (primingIntervals idx.toNat) ∧
      stp.composited = st.composited ∧ stp.last_subtitle = st.last_subtitle ∧
      stp.last_frame = st.last_frame := by
  unfold primeDecoder primingIntervals
  have e1 : (max 0 (idx - 10)).toNat = idx.toNat - 10 := by omega
  have e2 : (idx - max 0 (idx - 10)).toNat = min idx.toNat 10 := by omega
  simp only [e1, e2]
  exact primeLoop_upTo dec f st (idx.toNat - 10) (min idx.toNat 10) (by omega)

/-- The loop over the rects adds the number of rects it composites to the
count. -/
theorem renderRects_count (f : Filter) (rects : List AVSubtitleRect) (planes planes1 : Planes)
    (count count1 : Nat) (h : renderRects f (planes, count) rects = some (planes1, count1)) :
    count1 = count + compositedCount rects := by
  induction rects generalizing planes count with
  | nil =>
    simp only [renderRects, Option.some.injEq, Prod.mk.injEq] at h
    simp [compositedCount, h.2]
  | cons rect rest ih =>
    unfold renderRects at h
    split at h
    · exact Option.noConfusion h
    · have := ih _ _ h
      rw [this]
      unfold compositedCount
      by_cases hs : skipsRect rect = true
      · simp [hs]
      · simp [hs]
        omega

/-! ### Classification of the errors of a replay -/

theorem decodeTrace_ne_nil {σ : Type} (dec : Decoder σ) (avctx : σ) (packet : AVPacket)
    (rest : List AVPacket) : decodeTrace dec avctx (packet :: rest) ≠ [] := by
  unfold decodeTrace
  exact List.cons_ne_nil _ _

theorem classifyReplay_single {σ : Type} (out : DecodeOutput σ) :
    classifyReplay [out] =
      if out.ret < 0 then Except.error RenderError.failedToDecode
      else if out.got_sub = false then Except.error RenderError.gotNoSubtitle
      else if out.avsub.num_rects = 0 then Except.error RenderError.numRectsZero
      else Except.ok out.avsub := rfl

theorem classifyReplay_cons {σ : Type} (out : DecodeOutput σ) (outs : List (DecodeOutput σ))
    (hne : outs ≠ []) :
    classifyReplay (out :: outs) =
      if out.ret < 0 then Except.error RenderError.failedToDecode
      else if out.got_sub = true then Except.error RenderError.gotSubtitleSooner
      else classifyReplay outs := by
  unfold classifyReplay
  rw [List.dropLast_cons_of_ne_nil hne, List.find?_cons]
  by_cases h1 : out.ret < 0
  · simp [h1]
  · by_cases h2 : out.got_sub = true
    · simp [h1, h2]
    · have hlast : (out :: outs).getLast? = outs.getLast? := by
        cases outs with
        | nil => exact absurd rfl hne
        | cons o os => rfl
      simp only [h1, h2, decide_False, Bool.or_self, Bool.false_eq_true, if_false, hlast]

/-- The replay loop followed by the two tests of lines 446-450, on a non-empty
payload, gives the outcome `classifyReplay` assigns to the decoder's outputs. -/
theorem replayPackets_classify {σ : Type} (dec : Decoder σ) (packets : List AVPacket)
    (st : RenderState σ) (carried : Bool × AVSubtitle) (hne : packets ≠ []) :
    (match (replayPackets dec st carried packets).1 with
      | Except.error e => Except.error e
      | Except.ok (got_subtitle, avsub) =>
        if got_subtitle = false then Except.error RenderError.gotNoSubtitle
        else if avsub.num_rects = 0 then Except.error RenderError.numRectsZero
        else Except.ok avsub) =
      classifyReplay (decodeTrace dec st.avctx packets) := by
  induction packets generalizing st carried with
  | nil => exact absurd rfl hne
  | cons packet rest ih =>
    unfold replayPackets
    simp only [(decodeCall_fields dec st packet).2.2.2]
    cases rest with
    | nil =>
      rw [decodeTrace, decodeTrace, classifyReplay_single]
      by_cases h1 : (dec.avcodec_decode_subtitle2 st.avctx packet).ret < 0
      · simp [h1]
      · simp only [h1, if_false, ne_eq, not_true_eq_false, and_false, replayPackets]
    | cons q r =>
      rw [decodeTrace, classifyReplay_cons _ _ (decodeTrace_ne_nil dec _ q r)]
      by_cases h1 : (dec.avcodec_decode_subtitle2 st.avctx packet).ret < 0
      · simp [h1]
      · by_cases h2 : (dec.avcodec_decode_subtitle2 st.avctx packet).got_sub = true
        · simp [h1, h2]
        · simp only [h1, h2, if_false, false_and]
          have := ih (decodeCall dec st packet).2
            ((dec.avcodec_decode_subtitle2 st.avctx packet).got_sub,
              (dec.avcodec_decode_subtitle2 st.avctx packet).avsub) (List.cons_ne_nil q r)
          rw [(decodeCall_fields dec st packet).2.2.1] at this
          exact this

/-- The outcome of the replay of a subtitle is the one `classifyReplay` assigns
to the outputs of the decoder on its packets. -/
theorem replaySubtitle_classify {σ : Type} (dec : Decoder σ) (st : RenderState σ)
    (sub : Subtitle) :
    (replaySubtitle dec st sub).1 = classifyReplay (decodeTrace dec st.avctx sub.packets) := by
  by_cases hne : sub.packets = []
  · unfold replaySubtitle
    rw [hne]
    rfl
  · rw [← replayPackets_classify dec sub.packets st
      (false, { start_display_time := 0, end_display_time := 0, rects := [] }) hne]
    unfold replaySubtitle
    generalize replayPackets dec st
      (false, { start_display_time := 0, end_display_time := 0, rects := [] }) sub.packets = r
    obtain ⟨res, st3⟩ := r
    cases res with
    | error e => rfl
    | ok r =>
      obtain ⟨got, avsub⟩ := r
      simp only
      split
      · rfl
      · split <;> rfl

/-! ### What a `GetFrame` call that renders does -/

theorem primeBefore_spec {σ : Type} (dec : Decoder σ) (f : Filter) (st : RenderState σ)
    (idx : Int) (h0 : idx > -1) (hlen : idx.toNat ≤ f.subtitles.length) :
    ∃ stp, primeBefore dec f st idx = some stp ∧
      stp.decoded = st.decoded ++ primingFeed f st.last_subtitle idx ∧
      stp.composited = st.composited ∧ stp.last_subtitle = st.last_subtitle ∧
      stp.last_frame = st.last_frame := by
  unfold primeBefore primingFeed
  by_cases hc : f.codec_id = AVCodecID.AV_CODEC_ID_HDMV_PGS_SUBTITLE ∧
      st.last_subtitle ≠ idx - 1
  · rw [if_pos hc, if_pos hc]
    exact primeDecoder_spec dec f st idx (by omega) hlen
  · rw [if_neg hc, if_neg hc]
    exact ⟨st, rfl, by simp, rfl, rfl, rfl⟩

/-- A `GetFrame` call for a subtitle of the timeline that is not the one rendered
last: priming is defined, and the call is the replay of the subtitle followed
by compositing. -/
theorem GetFrame_render {σ : Type} (dec : Decoder σ) (f : Filter) (st : RenderState σ)
    (n : Int) (sub : Subtitle) (hidx : subtitleIndex f n > -1)
    (hmiss : subtitleIndex f n ≠ st.last_subtitle)
    (hsub : f.subtitles[(subtitleIndex f n).toNat]? = some sub) :
    ∃ stp, primeBefore dec f st (subtitleIndex f n) = some stp ∧
      stp.decoded = st.decoded ++ primingFeed f st.last_subtitle (subtitleIndex f n) ∧
      stp.composited = st.composited ∧ stp.last_frame = st.last_frame ∧
      GetFrame dec f st n =
        match replaySubtitle dec { stp with last_subtitle := subtitleIndex f n } sub with
        | (Except.error e, st3) => some (Except.error e, st3)
        | (Except.ok avsub, st3) =>
          match renderRects f (freshPlanes f.host, st3.composited) avsub.rects with
          | none => none
          | some (planes1, count) =>
            some (finishFrame f { st3 with composited := count } (subtitleIndex f n)
              planes1) := by
  have hlen : (subtitleIndex f n).toNat ≤ f.subtitles.length :=
    le_of_lt (getElem?_some_lt hsub)
  obtain ⟨stp, hp, h1, h2, _, h4⟩ := primeBefore_spec dec f st (subtitleIndex f n) hidx hlen
  refine ⟨stp, hp, h1, h2, h4, ?_⟩
  unfold GetFrame
  simp only [hmiss, if_false]
  rw [renderFrame_eq dec f st _ hidx, hp]
  simp only [hsub]

/-- A `GetFrame` call that renders and returns a frame: the subtitle was
rendered once, and its index and the frame are the new cache state. -/
theorem GetFrame_ok_rendered {σ : Type} (dec : Decoder σ) (f : Filter)
    (st st1 : RenderState σ) (n : Int) (frame : Option VideoFrame)
    (hidx : subtitleIndex f n > -1) (hmiss : subtitleIndex f n ≠ st.last_subtitle)
    (h : GetFrame dec f st n = some (Except.ok frame, st1)) :
    RenderedOnce dec f (subtitleIndex f n) st st1 ∧
      st1.last_subtitle = subtitleIndex f n ∧ st1.last_frame = frame := by
  have hlast : st1.last_subtitle = subtitleIndex f n ∧ st1.last_frame = frame := by
    unfold GetFrame at h
    simp only [hmiss, if_false] at h
    exact renderFrame_ok dec f st st1 _ frame hidx h
  refine ⟨?_, hlast⟩
  cases hsub : f.subtitles[(subtitleIndex f n).toNat]? with
  | none =>
    unfold GetFrame at h
    simp only [hmiss, if_false] at h
    rw [renderFrame_eq dec f st _ hidx] at h
    split at h
    · exact Option.noConfusion h
    · simp only [hsub] at h
      exact Option.noConfusion h
  | some sub =>
    obtain ⟨stp, hp, h1, h2, _, heq⟩ := GetFrame_render dec f st n sub hidx hmiss hsub
    rw [heq] at h
    obtain ⟨⟨fed, d1, _, d3⟩, c1, _, _⟩ :=
      replaySubtitle_state dec { stp with last_subtitle := subtitleIndex f n } sub
    cases hr : replaySubtitle dec { stp with last_subtitle := subtitleIndex f n } sub with
    | mk res st3 =>
      rw [hr] at h d1 d3 c1
      cases res with
      | error e =>
        simp only [Option.some.injEq, Prod.mk.injEq] at h
        exact Except.noConfusion h.1
      | ok avsub =>
        simp only at h
        split at h
        · exact Option.noConfusion h
        · rename_i planes1 count hrects
          have hcount := renderRects_count f _ _ _ _ _ hrects
          have hst1 : st1 = (finishFrame f { st3 with composited := count }
              (subtitleIndex f n) planes1).2 := by
            have := Option.some.inj h
            rw [this]
          have hfed := d3 avsub rfl
          refine ⟨sub, stp, avsub, st3, hsub, hp, hr, ?_, ?_⟩
          · rw [hst1]
            simp only [finishFrame, hidx, if_true]
            simp only at d1
            rw [d1, hfed, h1]
          · rw [hst1]
            simp only [finishFrame, hidx, if_true]
            simp only at c1
            rw [hcount, c1, h2]

/-! ### The cache over a sequence of requests, error classification, priming -/

theorem INT_MIN_lt : INT_MIN < -1 := by
  unfold INT_MIN
  norm_num

/-- C11. The request sequence `[5, 5, 6, 5]` from the state the constructor
leaves, when frames 5 and 6 resolve to two different subtitles and the three
renders return frames: the first request renders the subtitle of frame 5 once;
the second returns the same frame and leaves the state, with its record of
packets decoded and rects composited, as it is; the third renders the subtitle
of frame 6 once; the fourth renders the subtitle of frame 5 once more. -/
theorem cache_covers_only_repeats {σ : Type} (dec : Decoder σ) (f : Filter) (avctx : σ)
    (s1 s3 s4 : RenderState σ) (fr1 fr3 fr4 : Option VideoFrame)
    (h5 : subtitleIndex f 5 > -1) (h6 : subtitleIndex f 6 > -1)
    (hdiff : subtitleIndex f 5 ≠ subtitleIndex f 6)
    (hr1 : GetFrame dec f (RenderState.start avctx) 5 = some (Except.ok fr1, s1))
    (hr3 : GetFrame dec f s1 6 = some (Except.ok fr3, s3))
    (hr4 : GetFrame dec f s3 5 = some (Except.ok fr4, s4)) :
    RenderedOnce dec f (subtitleIndex f 5) (RenderState.start avctx) s1 ∧
    GetFrame dec f s1 5 = some (Except.ok fr1, s1) ∧
    RenderedOnce dec f (subtitleIndex f 6) s1 s3 ∧
    RenderedOnce dec f (subtitleIndex f 5) s3 s4 := by
  have hstart : subtitleIndex f 5 ≠ (RenderState.start avctx).last_subtitle := by
    have := INT_MIN_lt
    show subtitleIndex f 5 ≠ INT_MIN
    omega
  obtain ⟨r1, l1, f1⟩ := GetFrame_ok_rendered dec f _ s1 5 fr1 h5 hstart hr1
  have hmiss3 : subtitleIndex f 6 ≠ s1.last_subtitle := by
    rw [l1]; exact fun h => hdiff h.symm
  obtain ⟨r3, l3, _⟩ := GetFrame_ok_rendered dec f s1 s3 6 fr3 h6 hmiss3 hr3
  have hmiss4 : subtitleIndex f 5 ≠ s3.last_subtitle := by
    rw [l3]; exact hdiff
  obtain ⟨r4, _, _⟩ := GetFrame_ok_rendered dec f s3 s4 5 fr4 h5 hmiss4 hr4
  refine ⟨r1, ?_, r3, r4⟩
  unfold GetFrame
  simp only [l1, if_true, f1]

/-- C11 at two subtitles on frames 0-5 and 6-9 with a PGS decoder: the decoder is
fed the packet of the first subtitle, then that of the second, then that of
the first again. -/
theorem cache_covers_only_repeats_witness :
    ∃ fr1 s1 fr3 s3 fr4 s4,
      GetFrame scriptedDecoder (twoSubtitles AVCodecID.AV_CODEC_ID_HDMV_PGS_SUBTITLE)
        (RenderState.start ()) 5 = some (Except.ok fr1, s1) ∧
      GetFrame scriptedDecoder (twoSubtitles AVCodecID.AV_CODEC_ID_HDMV_PGS_SUBTITLE) s1 6
        = some (Except.ok fr3, s3) ∧
      GetFrame scriptedDecoder (twoSubtitles AVCodecID.AV_CODEC_ID_HDMV_PGS_SUBTITLE) s3 5
        = some (Except.ok fr4, s4) ∧
      s4.decoded = [⟨100, 0, 2⟩, ⟨200, 0, 2⟩, ⟨100, 0, 2⟩] ∧ s4.composited = 3 ∧
      (RenderedOnce scriptedDecoder (twoSubtitles AVCodecID.AV_CODEC_ID_HDMV_PGS_SUBTITLE)
          (subtitleIndex (twoSubtitles AVCodecID.AV_CODEC_ID_HDMV_PGS_SUBTITLE) 5)
          (RenderState.start ()) s1 ∧
        GetFrame scriptedDecoder (twoSubtitles AVCodecID.AV_CODEC_ID_HDMV_PGS_SUBTITLE) s1 5
          = some (Except.ok fr1, s1) ∧
        RenderedOnce scriptedDecoder (twoSubtitles AVCodecID.AV_CODEC_ID_HDMV_PGS_SUBTITLE)
          (subtitleIndex (twoSubtitles AVCodecID.AV_CODEC_ID_HDMV_PGS_SUBTITLE) 6) s1 s3 ∧
        RenderedOnce scriptedDecoder (twoSubtitles AVCodecID.AV_CODEC_ID_HDMV_PGS_SUBTITLE)
          (subtitleIndex (twoSubtitles AVCodecID.AV_CODEC_ID_HDMV_PGS_SUBTITLE) 5) s3 s4) :=
  ⟨_, _, _, _, _, _, rfl, rfl, rfl, rfl, rfl,
    cache_covers_only_repeats scriptedDecoder
      (twoSubtitles AVCodecID.AV_CODEC_ID_HDMV_PGS_SUBTITLE) () _ _ _ _ _ _
      (by decide) (by decide) (by decide) rfl rfl rfl⟩

/-- C13. A `GetFrame` call that replays the payload of subtitle `idx` (an index
of the timeline, not the one rendered last) from the decoder context `stp.avctx`
left by priming: it throws the error `e` exactly when `classifyReplay` assigns
`e` to the decoder's outputs on the payload, and it returns a frame exactly
when `classifyReplay` assigns them success, with a subtitle whose rects are
composited inside the planes. -/
theorem GetFrame_error_classification {σ : Type} (dec : Decoder σ) (f : Filter)
    (st stp : RenderState σ) (n : Int) (sub : Subtitle)
    (hidx : subtitleIndex f n > -1) (hmiss : subtitleIndex f n ≠ st.last_subtitle)
    (hprime : primeBefore dec f st (subtitleIndex f n) = some stp)
    (hsub : f.subtitles[(subtitleIndex f n).toNat]? = some sub) :
    (∀ e, (∃ st1, GetFrame dec f st n = some (Except.error e, st1)) ↔
      classifyReplay (decodeTrace dec stp.avctx sub.packets) = Except.error e) ∧
    ((∃ frame st1, GetFrame dec f st n = some (Except.ok frame, st1)) ↔
      ∃ avsub planes1 count,
        classifyReplay (decodeTrace dec stp.avctx sub.packets) = Except.ok avsub ∧
        renderRects f (freshPlanes f.host, stp.composited) avsub.rects
          = some (planes1, count)) := by
  obtain ⟨stp1, hp, _, _, _, heq⟩ := GetFrame_render dec f st n sub hidx hmiss hsub
  rw [hprime] at hp
  have hstp := Option.some.inj hp
  subst hstp
  have hclass := replaySubtitle_classify dec
    { stp with last_subtitle := subtitleIndex f n } sub
  have hcomp := (replaySubtitle_state dec
    { stp with last_subtitle := subtitleIndex f n } sub).2.1
  simp only at hclass hcomp
  rw [heq]
  cases hr : replaySubtitle dec { stp with last_subtitle := subtitleIndex f n } sub with
  | mk res st3 =>
    rw [hr] at hclass hcomp
    simp only at hclass hcomp
    rw [← hclass]
    cases res with
    | error e0 =>
      simp only
      constructor
      · intro e
        constructor
        · rintro ⟨st1, h⟩
          simp only [Option.some.injEq, Prod.mk.injEq] at h
          rw [Except.error.inj h.1]
        · intro h
          have he := Except.error.inj h
          subst he
          exact ⟨st3, rfl⟩
      · constructor
        · rintro ⟨frame, st1, h⟩
          simp only [Option.some.injEq, Prod.mk.injEq] at h
          exact Except.noConfusion h.1
        · rintro ⟨avsub, _, _, h, _⟩
          exact Except.noConfusion h
    | ok avsub0 =>
      simp only
      rw [hcomp]
      constructor
      · intro e
        constructor
        · rintro ⟨st1, h⟩
          split at h
          · exact Option.noConfusion h
          · simp only [finishFrame, Option.some.injEq, Prod.mk.injEq] at h
            exact Except.noConfusion h.1
        · intro h
          exact Except.noConfusion h
      · constructor
        · rintro ⟨frame, st1, h⟩
          split at h
          · exact Option.noConfusion h
          · rename_i planes1 count hrects
            exact ⟨avsub0, planes1, count, rfl, hrects⟩
        · rintro ⟨avsub, planes1, count, h, hrects⟩
          have hav : avsub0 = avsub := by injection h
          subst hav
          rw [hrects]
          exact ⟨_, _, rfl⟩

/-- C13 at a decoder whose first call reports an error: the render of the first
subtitle throws `failedToDecode`. -/
theorem GetFrame_error_classification_witness :
    ∃ st1, GetFrame flakyDecoder (twoSubtitles AVCodecID.AV_CODEC_ID_DVD_SUBTITLE)
      (RenderState.start 1) 5 = some (Except.error RenderError.failedToDecode, st1) :=
  ((GetFrame_error_classification flakyDecoder
    (twoSubtitles AVCodecID.AV_CODEC_ID_DVD_SUBTITLE) (RenderState.start 1)
    (RenderState.start 1) 5 ⟨[⟨100, 0, 2⟩], 0, 6⟩ (by decide) (by decide) rfl rfl).1
    RenderError.failedToDecode).mpr rfl

/-- C19. A `GetFrame` call for a subtitle `idx` of the timeline that is not the
one rendered last, with a defined outcome: the decoder is fed the priming
packets `primingFeed` and then packets of the payload of `idx`: all of them when
a frame is returned, a leading part when an error is thrown. The priming
packets are the payloads of the intervals `max(0, idx - 10), ..., idx - 1`, in
this order, `min(idx, 10)` intervals, when the decoder is the PGS one and
`last_subtitle != idx - 1`, and none otherwise. -/
theorem GetFrame_feeds_decoder {σ : Type} (dec : Decoder σ) (f : Filter)
    (st st1 : RenderState σ) (n : Int) (sub : Subtitle)
    (res : Except RenderError (Option VideoFrame))
    (hidx : subtitleIndex f n > -1) (hmiss : subtitleIndex f n ≠ st.last_subtitle)
    (hsub : f.subtitles[(subtitleIndex f n).toNat]? = some sub)
    (hres : GetFrame dec f st n = some (res, st1)) :
    (∃ fed, st1.decoded =
        st.decoded ++ primingFeed f st.last_subtitle (subtitleIndex f n) ++ fed ∧
      fed <+: sub.packets ∧ (∀ frame, res = Except.ok frame → fed = sub.packets)) ∧
    (f.codec_id = AVCodecID.AV_CODEC_ID_HDMV_PGS_SUBTITLE →
      st.last_subtitle ≠ subtitleIndex f n - 1 →
      primingFeed f st.last_subtitle (subtitleIndex f n) =
        payloads f (List.range' ((subtitleIndex f n).toNat - 10)
          (min (subtitleIndex f n).toNat 10))) ∧
    (f.codec_id ≠ AVCodecID.AV_CODEC_ID_HDMV_PGS_SUBTITLE ∨
      st.last_subtitle = subtitleIndex f n - 1 →
      primingFeed f st.last_subtitle (subtitleIndex f n) = []) := by
  refine ⟨?_, ?_, ?_⟩
  · obtain ⟨stp, _, h1, _, _, heq⟩ := GetFrame_render dec f st n sub hidx hmiss hsub
    rw [heq] at hres
    obtain ⟨⟨fed, d1, d2, d3⟩, _⟩ :=
      replaySubtitle_state dec { stp with last_subtitle := subtitleIndex f n } sub
    cases hr : replaySubtitle dec { stp with last_subtitle := subtitleIndex f n } sub with
    | mk r st3 =>
      rw [hr] at hres d1 d3
      simp only at d1 d3
      cases r with
      | error e =>
        simp only [Option.some.injEq, Prod.mk.injEq] at hres
        refine ⟨fed, ?_, d2, ?_⟩
        · rw [← hres.2, d1, h1]
        · intro frame hframe
          rw [← hres.1] at hframe
          exact Except.noConfusion hframe
      | ok avsub =>
        simp only at hres
        split at hres
        · exact Option.noConfusion hres
        · simp only [finishFrame, hidx, if_true, Option.some.injEq, Prod.mk.injEq] at hres
          refine ⟨fed, ?_, d2, fun _ _ => d3 avsub rfl⟩
          rw [← hres.2]
          simp only
          rw [d1, h1]
  · intro hc hl
    unfold primingFeed primingIntervals
    rw [if_pos ⟨hc, hl⟩]
  · intro h
    unfold primingFeed
    rw [if_neg]
    rintro ⟨hc, hl⟩
    rcases h with h | h
    · exact h hc
    · exact hl h

/-- C19 at the second of two PGS subtitles, requested first: the decoder is fed
the packet of the first subtitle, then the packet of the second. -/
theorem GetFrame_feeds_decoder_witness :
    ∃ res st1, GetFrame scriptedDecoder (twoSubtitles AVCodecID.AV_CODEC_ID_HDMV_PGS_SUBTITLE)
        (RenderState.start ()) 6 = some (res, st1) ∧
      st1.decoded = [⟨100, 0, 2⟩, ⟨200, 0, 2⟩] ∧
      ∃ fed, st1.decoded = (RenderState.start ()).decoded ++
          primingFeed (twoSubtitles AVCodecID.AV_CODEC_ID_HDMV_PGS_SUBTITLE)
            (RenderState.start ()).last_subtitle
            (subtitleIndex (twoSubtitles AVCodecID.AV_CODEC_ID_HDMV_PGS_SUBTITLE) 6) ++ fed ∧
        fed <+: [⟨200, 0, 2⟩] ∧ (∀ frame, res = Except.ok frame → fed = [⟨200, 0, 2⟩]) :=
  ⟨_, _, rfl, rfl,
    (GetFrame_feeds_decoder scriptedDecoder
      (twoSubtitles AVCodecID.AV_CODEC_ID_HDMV_PGS_SUBTITLE) (RenderState.start ()) _ 6
      ⟨[⟨200, 0, 2⟩], 6, 10⟩ _ (by decide) (by decide) rfl rfl).1⟩

/-! ### Failed renders, uncovered frames -/

/-- After any defined `GetFrame` call, `last_subtitle` is what it was or is the
index of the requested subtitle, an index that is not "none". -/
theorem GetFrame_last_subtitle {σ : Type} (dec : Decoder σ) (f : Filter)
    (st st1 : RenderState σ) (n : Int) (res : Except RenderError (Option VideoFrame))
    (h : GetFrame dec f st n = some (res, st1)) :
    st1.last_subtitle = st.last_subtitle ∨
      (st1.last_subtitle = subtitleIndex f n ∧ subtitleIndex f n > -1) := by
  by_cases hhit : subtitleIndex f n = st.last_subtitle
  · left
    unfold GetFrame at h
    simp only [hhit, if_true, Option.some.injEq, Prod.mk.injEq] at h
    rw [← h.2]
  · by_cases hidx : subtitleIndex f n > -1
    · right
      refine ⟨?_, hidx⟩
      cases hsub : f.subtitles[(subtitleIndex f n).toNat]? with
      | none =>
        unfold GetFrame at h
        simp only [hhit, if_false] at h
        rw [renderFrame_eq dec f st _ hidx] at h
        split at h
        · exact Option.noConfusion h
        · simp only [hsub] at h
          exact Option.noConfusion h
      | some sub =>
        obtain ⟨stp, _, _, _, _, heq⟩ := GetFrame_render dec f st n sub hidx hhit hsub
        rw [heq] at h
        have hl := (replaySubtitle_state dec
          { stp with last_subtitle := subtitleIndex f n } sub).2.2.1
        cases hr : replaySubtitle dec { stp with last_subtitle := subtitleIndex f n } sub with
        | mk r st3 =>
          rw [hr] at h hl
          simp only at hl
          cases r with
          | error e =>
            simp only [Option.some.injEq, Prod.mk.injEq] at h
            rw [← h.2, hl]
          | ok avsub =>
            simp only at h
            split at h
            · exact Option.noConfusion h
            · simp only [finishFrame, hidx, if_true, Option.some.injEq, Prod.mk.injEq] at h
              rw [← h.2]
              exact hl
    · left
      unfold GetFrame at h
      simp only [hhit, if_false] at h
      unfold renderFrame at h
      simp only [hidx, if_false, finishFrame, Option.some.injEq, Prod.mk.injEq] at h
      rw [← h.2]

/-- In a reachable state `last_subtitle` is `INT_MIN` or an index that is not
"none"; it is never `-1`. -/
theorem Reachable.last_subtitle_ne {σ : Type} {dec : Decoder σ} {f : Filter}
    {st : RenderState σ} (h : Reachable dec f st) : st.last_subtitle ≠ -1 := by
  induction h with
  | start avctx =>
    have := INT_MIN_lt
    show INT_MIN ≠ -1
    omega
  | step st st1 n res _ hget ih =>
    rcases GetFrame_last_subtitle dec f st st1 n res hget with h | ⟨h1, h2⟩
    · rw [h]; exact ih
    · rw [h1]; omega

/-- A `GetFrame` call that throws has set `last_subtitle` to the index of the
requested subtitle, which it was not before, and has kept `last_frame`. -/
theorem GetFrame_error_state {σ : Type} (dec : Decoder σ) (f : Filter)
    (st st1 : RenderState σ) (n : Int) (e : RenderError)
    (h : GetFrame dec f st n = some (Except.error e, st1)) :
    st1.last_subtitle = subtitleIndex f n ∧ st1.last_subtitle ≠ st.last_subtitle ∧
      st1.last_frame = st.last_frame := by
  have hhit : subtitleIndex f n ≠ st.last_subtitle := by
    intro hhit
    unfold GetFrame at h
    simp only [hhit, if_true, Option.some.injEq, Prod.mk.injEq] at h
    exact Except.noConfusion h.1
  have hidx : subtitleIndex f n > -1 := by
    by_contra hidx
    unfold GetFrame at h
    simp only [hhit, if_false] at h
    unfold renderFrame at h
    simp only [hidx, if_false, finishFrame, Option.some.injEq, Prod.mk.injEq] at h
    exact Except.noConfusion h.1
  have hlast : st1.last_subtitle = subtitleIndex f n := by
    rcases GetFrame_last_subtitle dec f st st1 n _ h with h1 | ⟨h1, _⟩
    · exfalso
      cases hsub : f.subtitles[(subtitleIndex f n).toNat]? with
      | none =>
        unfold GetFrame at h
        simp only [hhit, if_false] at h
        rw [renderFrame_eq dec f st _ hidx] at h
        split at h
        · exact Option.noConfusion h
        · simp only [hsub] at h
          exact Option.noConfusion h
      | some sub =>
        obtain ⟨stp, _, _, _, _, heq⟩ := GetFrame_render dec f st n sub hidx hhit hsub
        rw [heq] at h
        have hl := (replaySubtitle_state dec
          { stp with last_subtitle := subtitleIndex f n } sub).2.2.1
        cases hr : replaySubtitle dec { stp with last_subtitle := subtitleIndex f n } sub with
        | mk r st3 =>
          rw [hr] at h hl
          simp only at hl
          cases r with
          | error e1 =>
            simp only [Option.some.injEq, Prod.mk.injEq] at h
            rw [← h.2, hl] at h1
            exact hhit h1
          | ok avsub =>
            simp only at h
            split at h
            · exact Option.noConfusion h
            · simp only [finishFrame, Option.some.injEq, Prod.mk.injEq] at h
              exact Except.noConfusion h.1
    · exact h1
  refine ⟨hlast, by rw [hlast]; exact hhit, ?_⟩
  cases hsub : f.subtitles[(subtitleIndex f n).toNat]? with
  | none =>
    unfold GetFrame at h
    simp only [hhit, if_false] at h
    rw [renderFrame_eq dec f st _ hidx] at h
    split at h
    · exact Option.noConfusion h
    · simp only [hsub] at h
      exact Option.noConfusion h
  | some sub =>
    obtain ⟨stp, _, _, _, hf, heq⟩ := GetFrame_render dec f st n sub hidx hhit hsub
    rw [heq] at h
    have hl := (replaySubtitle_state dec
      { stp with last_subtitle := subtitleIndex f n } sub).2.2.2
    cases hr : replaySubtitle dec { stp with last_subtitle := subtitleIndex f n } sub with
    | mk r st3 =>
      rw [hr] at h hl
      simp only at hl
      cases r with
      | error e1 =>
        simp only [Option.some.injEq, Prod.mk.injEq] at h
        rw [← h.2, hl, hf]
      | ok avsub =>
        simp only at h
        split at h
        · exact Option.noConfusion h
        · simp only [finishFrame, Option.some.injEq, Prod.mk.injEq] at h
          exact Except.noConfusion h.1

/-- C20, at the failing input. Two subtitles on frames 0-5 and 6-9 and a decoder
whose second call reports an error. `GetFrame 5` renders the first subtitle;
`GetFrame 6` throws `failedToDecode` and leaves `last_subtitle = 1` with the frame
of the first subtitle in `last_frame`; a second `GetFrame 6` then returns that
frame without decoding, although a render of the second subtitle gives another
frame. And when the very first render throws, the repeated request returns the
null `last_frame`. -/
theorem failed_render_changes_last_subtitle :
    ∃ frame s1 s2,
      GetFrame flakyDecoder (twoSubtitles AVCodecID.AV_CODEC_ID_DVD_SUBTITLE)
        (RenderState.start 0) 5 = some (Except.ok frame, s1) ∧
      GetFrame flakyDecoder (twoSubtitles AVCodecID.AV_CODEC_ID_DVD_SUBTITLE) s1 6
        = some (Except.error RenderError.failedToDecode, s2) ∧
      s1.last_subtitle = 0 ∧ s2.last_subtitle = 1 ∧ s2.last_frame = s1.last_frame ∧
      GetFrame flakyDecoder (twoSubtitles AVCodecID.AV_CODEC_ID_DVD_SUBTITLE) s2 6
        = some (Except.ok frame, s2) ∧
      ∃ other s3,
        GetFrame flakyDecoder (twoSubtitles AVCodecID.AV_CODEC_ID_DVD_SUBTITLE)
          (RenderState.start 0) 6 = some (Except.ok other, s3) ∧ other ≠ frame ∧
        ∃ s4,
          GetFrame flakyDecoder (twoSubtitles AVCodecID.AV_CODEC_ID_DVD_SUBTITLE)
            (RenderState.start 1) 5 = some (Except.error RenderError.failedToDecode, s4) ∧
          GetFrame flakyDecoder (twoSubtitles AVCodecID.AV_CODEC_ID_DVD_SUBTITLE) s4 5
            = some (Except.ok none, s4) :=
  ⟨_, _, _, rfl, rfl, rfl, rfl, rfl, rfl, _, _, rfl, by decide, _, rfl, rfl⟩

theorem set_zero_getD (plane : List Nat) (q p : Nat) (h : plane.getD p 0 = 0) :
    (plane.set q 0).getD p 0 = 0 := by
  rw [List.getD_eq_getElem?_getD] at h ⊢
  rw [List.getElem?_set]
  by_cases hq : q = p
  · rw [if_pos hq]
    split <;> rfl
  · rw [if_neg hq]
    exact h

theorem set_zero_getD_self (plane : List Nat) (q : Nat) : (plane.set q 0).getD q 0 = 0 := by
  rw [List.getD_eq_getElem?_getD, List.getElem?_set, if_pos rfl]
  split <;> rfl

theorem zeroRow_getD_of (g : Nat → Nat) (xs : List Nat) (plane : List Nat) (p : Nat)
    (h : plane.getD p 0 = 0) :
    (xs.foldl (fun plane x => plane.set (g x) 0) plane).getD p 0 = 0 := by
  induction xs generalizing plane with
  | nil => exact h
  | cons x rest ih => exact ih _ (set_zero_getD plane (g x) p h)

theorem zeroRow_getD_mem (g : Nat → Nat) (xs : List Nat) (plane : List Nat) (x : Nat)
    (hx : x ∈ xs) : (xs.foldl (fun plane x => plane.set (g x) 0) plane).getD (g x) 0 = 0 := by
  induction xs generalizing plane with
  | nil => simp at hx
  | cons x1 rest ih =>
    rcases List.mem_cons.mp hx with rfl | hx
    · exact zeroRow_getD_of g rest _ _ (set_zero_getD_self plane (g x))
    · exact ih _ hx

theorem zeroRows_getD_of (g : Nat → Nat → Nat) (ys xs : List Nat) (plane : List Nat) (p : Nat)
    (h : plane.getD p 0 = 0) :
    (ys.foldl (fun plane y => xs.foldl (fun plane x => plane.set (g y x) 0) plane)
      plane).getD p 0 = 0 := by
  induction ys generalizing plane with
  | nil => exact h
  | cons y rest ih => exact ih _ (zeroRow_getD_of (g y) xs plane p h)

theorem zeroRows_getD_mem (g : Nat → Nat → Nat) (ys xs : List Nat) (plane : List Nat)
    (y x : Nat) (hy : y ∈ ys) (hx : x ∈ xs) :
    (ys.foldl (fun plane y => xs.foldl (fun plane x => plane.set (g y x) 0) plane)
      plane).getD (g y x) 0 = 0 := by
  induction ys generalizing plane with
  | nil => simp at hy
  | cons y1 rest ih =>
    rcases List.mem_cons.mp hy with rfl | hy
    · exact zeroRows_getD_of g rest xs _ _ (zeroRow_getD_mem (g y) xs plane x hx)
    · exact ih _ hy

/-- Every byte of the visible `width` x `height` area of a blank plane is `0`. -/
theorem blankPlane_zero (host : Host) (y x : Nat) (hy : y < host.height)
    (hx : x < host.width) : (blankPlane host).getD (y * host.pitch + x) 0 = 0 :=
  zeroRows_getD_mem (fun y x => y * host.pitch + x) (List.range host.height)
    (List.range host.width) host.newPlane y x (List.mem_range.mpr hy) (List.mem_range.mpr hx)

/-- Copying a blank plane into a new plane gives the blank plane. -/
theorem BitBlt_blankPlane (host : Host) :
    BitBlt host.newPlane host.pitch (blankPlane host) host.pitch host.width host.height =
      blankPlane host := by
  unfold BitBlt
  show _ = (List.range host.height).foldl
    (fun plane y => (List.range host.width).foldl
      (fun plane x => plane.set (y * host.pitch + x) 0) plane) host.newPlane
  apply List.foldl_ext
  intro dst y hy
  apply List.foldl_ext
  intro dst1 x hx
  rw [blankPlane_zero host y x (List.mem_range.mp hy) (List.mem_range.mp hx)]

theorem freshPlanes_eq (host : Host) :
    freshPlanes host = { a := blankPlane host, r := blankPlane host, g := blankPlane host,
                         b := blankPlane host } := by
  unfold freshPlanes
  simp only [BitBlt_blankPlane]

/-- C12. In point mode, for a reachable state and a frame `n` that no interval
covers: `GetFrame n` returns a frame whose R, G, B planes and alpha plane are
the blank plane, every visible byte of which is `0`; the state is left as it
was, with no packet decoded. Hence a following request is a cache hit exactly
when its subtitle is the one rendered last, and is rendered otherwise. -/
theorem GetFrame_uncovered {σ : Type} (dec : Decoder σ) (f : Filter) (st : RenderState σ)
    (n : Int) (hreach : Reachable dec f st) (hpoint : f.flatten = false)
    (hnone : ∀ s ∈ f.subtitles, ¬ s.covers n) :
    GetFrame dec f st n =
      some (Except.ok (some
        { planes := { a := blankPlane f.host, r := blankPlane f.host,
                      g := blankPlane f.host, b := blankPlane f.host },
          text := if f.info then some f.desc else none }), st) ∧
    (∀ y x v : Nat, y < f.host.height → x < f.host.width →
      (blankPlane f.host)[y * f.host.pitch + x]? = some v → v = 0) ∧
    (∀ m : Int, subtitleIndex f m = st.last_subtitle →
      GetFrame dec f st m = some (Except.ok st.last_frame, st)) ∧
    (∀ m : Int, subtitleIndex f m ≠ st.last_subtitle →
      GetFrame dec f st m = renderFrame dec f st (subtitleIndex f m)) := by
  have hidx : subtitleIndex f n = -1 := by
    unfold subtitleIndex
    rw [hpoint]
    simp only [Bool.false_eq_true, if_false]
    exact (findSubtitleIndexFrom_none n f.subtitles 0).mpr hnone
  refine ⟨?_, ?_, ?_, ?_⟩
  · unfold GetFrame
    simp only [hidx]
    rw [if_neg (fun h => hreach.last_subtitle_ne h.symm)]
    unfold renderFrame
    simp only [gt_iff_lt, lt_self_iff_false, if_false, finishFrame, freshPlanes_eq]
  · intro y x v hy hx hv
    have h0 := blankPlane_zero f.host y x hy hx
    rw [List.getD_eq_getElem?_getD, hv] at h0
    exact h0
  · intro m hm
    unfold GetFrame
    simp only [hm, if_true]
  · intro m hm
    unfold GetFrame
    simp only [hm, if_false]

/-- C12 at the example filter, whose subtitle is shown on frames 30-59: frame 10
returns the blank frame and leaves the initial state. -/
theorem GetFrame_uncovered_witness :
    GetFrame scriptedDecoder exampleFilter (RenderState.start ()) 10 =
      some (Except.ok (some
        { planes := { a := [0, 0, 7, 7, 0, 0, 7, 7], r := [0, 0, 7, 7, 0, 0, 7, 7],
                      g := [0, 0, 7, 7, 0, 0, 7, 7], b := [0, 0, 7, 7, 0, 0, 7, 7] },
          text := none }), RenderState.start ()) :=
  (GetFrame_uncovered scriptedDecoder exampleFilter (RenderState.start ()) 10
    (Reachable.start ()) rfl (by decide)).1

/-! ### Frame condition of the pixel loop -/

theorem Planes.sameAt_trans {p q r : Planes} {o : Nat} (h1 : p.sameAt q o)
    (h2 : q.sameAt r o) : p.sameAt r o :=
  ⟨h1.1.trans h2.1, h1.2.1.trans h2.2.1, h1.2.2.1.trans h2.2.2.1, h1.2.2.2.trans h2.2.2.2⟩

/-- A store that is defined leaves the plane's size and every other byte alone. -/
theorem writeByte_frame (plane q : List Nat) (off : Int) (v : Nat)
    (h : writeByte plane off v = some q) :
    q.length = plane.length ∧ ∀ o : Nat, (o : Int) ≠ off → q[o]? = plane[o]? := by
  unfold writeByte at h
  split at h
  · rename_i hb
    have hq := Option.some.inj h
    subst hq
    refine ⟨by simp, ?_⟩
    intro o ho
    rw [List.getElem?_set_ne (by omega)]
  · exact Option.noConfusion h

theorem putPixel_frame (p q : Planes) (off : Int) (argb : Nat)
    (h : putPixel p off argb = some q) :
    q.sameLength p ∧ ∀ o : Nat, (o : Int) ≠ off → q.sameAt p o := by
  unfold putPixel at h
  split at h
  · rename_i a r g b ha hr hg hb
    have hq := Option.some.inj h
    subst hq
    obtain ⟨la, oa⟩ := writeByte_frame _ _ _ _ ha
    obtain ⟨lr, or⟩ := writeByte_frame _ _ _ _ hr
    obtain ⟨lg, og⟩ := writeByte_frame _ _ _ _ hg
    obtain ⟨lb, ob⟩ := writeByte_frame _ _ _ _ hb
    exact ⟨⟨la, lr, lg, lb⟩, fun o ho => ⟨oa o ho, or o ho, og o ho, ob o ho⟩⟩
  · exact Option.noConfusion h

theorem compositePixel_frame (palette data0 : List Nat) (input dst : Int) (p q : Planes)
    (x : Nat) (h : compositePixel palette data0 input dst p x = some q) :
    q.sameLength p ∧ ∀ o : Nat, (o : Int) ≠ dst + x → q.sameAt p o := by
  unfold compositePixel at h
  split at h
  · exact Option.noConfusion h
  · split at h
    · exact Option.noConfusion h
    · exact putPixel_frame _ _ _ _ h

/-- The inner loop, run for `k` columns from any cursor: when every store is
defined, only the offsets `dst + x` with `x < k` can have changed. -/
theorem compositeRow_frame (palette data0 : List Nat) (input dst : Int) (p : Planes)
    (k : Nat) (q : Planes)
    (h : (List.range k).foldlM (compositePixel palette data0 input dst) p = some q) :
    q.sameLength p ∧
      ∀ o : Nat, (∀ x : Nat, x < k → (o : Int) ≠ dst + x) → q.sameAt p o := by
  induction k generalizing q with
  | zero =>
    simp only [List.range_zero, List.foldlM_nil, Option.pure_def] at h
    have hq := Option.some.inj h
    subst hq
    exact ⟨⟨rfl, rfl, rfl, rfl⟩, fun o _ => ⟨rfl, rfl, rfl, rfl⟩⟩
  | succ k ih =>
    rw [List.range_succ, List.foldlM_append] at h
    cases hk : (List.range k).foldlM (compositePixel palette data0 input dst) p with
    | none =>
      rw [hk] at h
      exact Option.noConfusion h
    | some q0 =>
      rw [hk] at h
      simp only [Option.some_bind, List.foldlM_cons, List.foldlM_nil, Option.pure_def,
        Option.bind_eq_bind] at h
      cases hstep : compositePixel palette data0 input dst q0 k with
      | none =>
        rw [hstep] at h
        exact Option.noConfusion h
      | some q1 =>
        rw [hstep] at h
        have hq := Option.some.inj h
        subst hq
        obtain ⟨hlen0, hout0⟩ := ih q0 hk
        obtain ⟨hlen1, hout1⟩ := compositePixel_frame _ _ _ _ _ _ _ hstep
        refine ⟨Planes.sameLength_trans hlen1 hlen0, ?_⟩
        intro o ho
        exact Planes.sameAt_trans (hout1 o (ho k (by omega)))
          (hout0 o (fun x hx => ho x (by omega)))

/-- The outer loop, run for `k` rows from any cursor: when every store is
defined, the destination pointer has advanced `k` strides and only the offsets
`dst + y * stride + x` of the rows done can have changed. -/
theorem compositeStep_frame (palette : List Nat) (rect : AVSubtitleRect) (stride : Int)
    (start : RowCursor) (k : Nat) (cur : RowCursor)
    (h : (List.range k).foldlM (compositeStep palette rect stride) start = some cur) :
    cur.dst = start.dst + k * stride ∧ cur.planes.sameLength start.planes ∧
      ∀ o : Nat, (∀ y x : Nat, y < k → x < rect.w.toNat →
          (o : Int) ≠ start.dst + y * stride + x) →
        cur.planes.sameAt start.planes o := by
  induction k generalizing cur with
  | zero =>
    simp only [List.range_zero, List.foldlM_nil, Option.pure_def] at h
    have hq := Option.some.inj h
    subst hq
    exact ⟨by simp, ⟨rfl, rfl, rfl, rfl⟩, fun o _ => ⟨rfl, rfl, rfl, rfl⟩⟩
  | succ k ih =>
    rw [List.range_succ, List.foldlM_append] at h
    cases hk : (List.range k).foldlM (compositeStep palette rect stride) start with
    | none =>
      rw [hk] at h
      exact Option.noConfusion h
    | some c0 =>
      rw [hk] at h
      simp only [Option.some_bind, List.foldlM_cons, List.foldlM_nil, Option.pure_def,
        Option.bind_eq_bind] at h
      obtain ⟨hdst0, hlen0, hout0⟩ := ih c0 hk
      unfold compositeStep at h
      cases hrow : compositeRow palette rect.data0 c0.input c0.dst rect.w c0.planes with
      | none =>
        rw [hrow] at h
        exact Option.noConfusion h
      | some q =>
        rw [hrow] at h
        have hq := Option.some.inj h
        subst hq
        obtain ⟨hlen1, hout1⟩ := compositeRow_frame _ _ _ _ _ _ _ hrow
        refine ⟨?_, Planes.sameLength_trans hlen1 hlen0, ?_⟩
        · simp only [hdst0]
          push_cast
          ring
        · intro o ho
          refine Planes.sameAt_trans (hout1 o ?_)
            (hout0 o (fun y x hy hx => ho y x (by omega) hx))
          intro x hx
          rw [hdst0]
          exact ho k x (by omega) hx

/-- The pixel loop of any rect: when every load and store is defined, the planes
keep their sizes and only the offsets `(rect.y + y) * stride + rect.x + x` with
`x < rect.w` and `y < rect.h` can have changed. -/
theorem compositeRect_frame (palette : List Nat) (rect : AVSubtitleRect) (stride : Int)
    (planes out : Planes) (h : compositeRect palette rect stride planes = some out) :
    out.sameLength planes ∧
      ∀ o : Nat, (∀ x y : Nat, (x : Int) < rect.w → (y : Int) < rect.h →
          (o : Int) ≠ (rect.y + y) * stride + rect.x + x) →
        out.sameAt planes o := by
  unfold compositeRect at h
  split at h
  · exact Option.noConfusion h
  · rename_i cur hcur
    have hq := Option.some.inj h
    subst hq
    obtain ⟨_, hlen, hout⟩ := compositeStep_frame _ _ _ _ _ _ hcur
    refine ⟨hlen, ?_⟩
    intro o ho
    refine hout o ?_
    intro y x hy hx
    have e : rect.y * stride + rect.x + (y : Int) * stride + (x : Int)
        = (rect.y + y) * stride + rect.x + x := by ring
    simp only
    rw [e]
    exact ho x y (by omega) (by omega)

/-- C21: frame condition of compositing one rect (source lines 454-501), for
every rect, every palette table, every row stride and every state of the four
planes. A rect with `w <= 0`, `h <= 0` or a type other than `SUBTITLE_BITMAP`
is skipped: the step is defined and returns the planes as they were. For any
other rect, whenever the step is defined (every load and store lands inside its
buffer) the four planes keep their sizes and every byte whose offset is not
`(rect.y + y) * stride + rect.x + x` for some `0 <= x < rect.w` and
`0 <= y < rect.h` is the same in all four planes as before the step. -/
theorem renderRect_frame (palette : List Int) (palette_size : Nat) (gray : Bool)
    (stride : Int) (planes : Planes) (rect : AVSubtitleRect) :
    ((rect.w ≤ 0 ∨ rect.h ≤ 0 ∨ rect.type ≠ AVSubtitleType.SUBTITLE_BITMAP) →
        renderRect palette palette_size gray stride planes rect = some planes) ∧
      ∀ out : Planes, renderRect palette palette_size gray stride planes rect = some out →
        out.sameLength planes ∧
        ∀ o : Nat, (∀ x y : Nat, (x : Int) < rect.w → (y : Int) < rect.h →
            (o : Int) ≠ (rect.y + y) * stride + rect.x + x) →
          out.sameAt planes o := by
  refine ⟨?_, ?_⟩
  · intro hskip
    have hs : skipsRect rect = true := by
      unfold skipsRect
      rcases hskip with h | h | h
      · simp [h]
      · simp [h]
      · simp [h]
    unfold renderRect
    rw [if_pos hs]
  · intro out h
    unfold renderRect at h
    split at h
    · have hq := Option.some.inj h
      subst hq
      exact ⟨⟨rfl, rfl, rfl, rfl⟩, fun o _ => ⟨rfl, rfl, rfl, rfl⟩⟩
    · split at h
      · exact Option.noConfusion h
      · exact compositeRect_frame _ _ _ _ _ h

/-- C21 at a concrete input: the 2x2 example rect moved to column 1, row 1 of a
4x3 canvas of pitch 4 whose planes hold 9 everywhere. The step is defined, the
planes keep their sizes, the bytes at offsets 4, 7 and 11 (left of, right of and
after the rect) are as before, and the same rect with `w = 0` leaves the planes
as they were. -/
theorem renderRect_frame_witness :
    renderRect [-1] 0 false 4 (constPlanes 12 9) { exampleRect with x := 1, y := 1 } =
        some { a := [9, 9, 9, 9, 9, 0xAA, 0x00, 9, 9, 0x00, 0xAA, 9],
               r := [9, 9, 9, 9, 9, 0xBB, 0x00, 9, 9, 0x00, 0xBB, 9],
               g := [9, 9, 9, 9, 9, 0xCC, 0x00, 9, 9, 0x00, 0xCC, 9],
               b := [9, 9, 9, 9, 9, 0xDD, 0x00, 9, 9, 0x00, 0xDD, 9] } ∧
      Planes.sameLength
        { a := [9, 9, 9, 9, 9, 0xAA, 0x00, 9, 9, 0x00, 0xAA, 9],
          r := [9, 9, 9, 9, 9, 0xBB, 0x00, 9, 9, 0x00, 0xBB, 9],
          g := [9, 9, 9, 9, 9, 0xCC, 0x00, 9, 9, 0x00, 0xCC, 9],
          b := [9, 9, 9, 9, 9, 0xDD, 0x00, 9, 9, 0x00, 0xDD, 9] } (constPlanes 12 9) ∧
      Planes.sameAt
        { a := [9, 9, 9, 9, 9, 0xAA, 0x00, 9, 9, 0x00, 0xAA, 9],
          r := [9, 9, 9, 9, 9, 0xBB, 0x00, 9, 9, 0x00, 0xBB, 9],
          g := [9, 9, 9, 9, 9, 0xCC, 0x00, 9, 9, 0x00, 0xCC, 9],
          b := [9, 9, 9, 9, 9, 0xDD, 0x00, 9, 9, 0x00, 0xDD, 9] } (constPlanes 12 9) 4 ∧
      Planes.sameAt
        { a := [9, 9, 9, 9, 9, 0xAA, 0x00, 9, 9, 0x00, 0xAA, 9],
          r := [9, 9, 9, 9, 9, 0xBB, 0x00, 9, 9, 0x00, 0xBB, 9],
          g := [9, 9, 9, 9, 9, 0xCC, 0x00, 9, 9, 0x00, 0xCC, 9],
          b := [9, 9, 9, 9, 9, 0xDD, 0x00, 9, 9, 0x00, 0xDD, 9] } (constPlanes 12 9) 7 ∧
      Planes.sameAt
        { a := [9, 9, 9, 9, 9, 0xAA, 0x00, 9, 9, 0x00, 0xAA, 9],
          r := [9, 9, 9, 9, 9, 0xBB, 0x00, 9, 9, 0x00, 0xBB, 9],
          g := [9, 9, 9, 9, 9, 0xCC, 0x00, 9, 9, 0x00, 0xCC, 9],
          b := [9, 9, 9, 9, 9, 0xDD, 0x00, 9, 9, 0x00, 0xDD, 9] } (constPlanes 12 9) 11 ∧
      renderRect [-1] 0 false 4 (constPlanes 12 9) { exampleRect with x := 1, y := 1, w := 0 } =
        some (constPlanes 12 9) := by
  have hrun : renderRect [-1] 0 false 4 (constPlanes 12 9)
      { exampleRect with x := 1, y := 1 } =
        some { a := [9, 9, 9, 9, 9, 0xAA, 0x00, 9, 9, 0x00, 0xAA, 9],
               r := [9, 9, 9, 9, 9, 0xBB, 0x00, 9, 9, 0x00, 0xBB, 9],
               g := [9, 9, 9, 9, 9, 0xCC, 0x00, 9, 9, 0x00, 0xCC, 9],
               b := [9, 9, 9, 9, 9, 0xDD, 0x00, 9, 9, 0x00, 0xDD, 9] } := by rfl
  obtain ⟨hlen, hf⟩ := (renderRect_frame [-1] 0 false 4 (constPlanes 12 9)
    { exampleRect with x := 1, y := 1 }).2 _ hrun
  refine ⟨hrun, hlen, hf 4 ?_, hf 7 ?_, hf 11 ?_, ?_⟩
  · intro x y hx hy
    simp only [exampleRect] at hx hy ⊢
    omega
  · intro x y hx hy
    simp only [exampleRect] at hx hy ⊢
    omega
  · intro x y hx hy
    simp only [exampleRect] at hx hy ⊢
    omega
  · exact (renderRect_frame [-1] 0 false 4 (constPlanes 12 9)
      { exampleRect with x := 1, y := 1, w := 0 }).1 (Or.inl (by decide))

end SubImageFile
